import Mathlib

/-!
Shallow embedding of `src/3-pipeline/extract_bag.py`: the extraction
pipeline that streams a rosbag, samples messages per topic, and writes
CSV rows and image files, plus the batch driver `extract_all` and the
`end_idx` translation performed in `__main__`.

External collaborators (the field extractor registry
`rosbag_preprocess.data_handler`, i.e. `get_msg_cols`, `process_msg_csv`,
`process_msg_img`) are parameters of the model: they are pluggable,
stateless transforms supplied from outside the pipeline.  File-system
effects (mkdir, open, header/row writes, image saves, close) are modelled
as explicit state: a content map for CSV files plus event logs recording
every open, header write, mkdir, image save and close.
-/

namespace ExtractBag

/-- One entry of the `data_schema` list of the extraction configuration. -/
structure TopicConfig where
  rosbag_topic : String
  output_dir : String
  output_type : String
  start_idx : Int
  end_idx : Int
  throttle_rate : Int
  extra_options : Option String
deriving DecidableEq, Repr

/-- One message of a bag: `bag.read_messages()` yields
`(topic, msg, time_stamp)`; `msg._type` is the message type tag. -/
structure Msg where
  topic : String
  msgType : String
  stamp : Int
deriving DecidableEq, Repr

/-- The pluggable field-extractor registry (external collaborator,
`rosbag_preprocess.data_handler`).  Extractors may raise, modelled as
`Except`: `process_msg_csv` returns a field-name/value mapping,
`process_msg_img` returns an image payload and its metadata.  Here
`get_msg_cols` is typed total — the success-path view used by the
functional claims; `HandlersF` below refines it to the fallible
registry contract (UnsupportedMessageType on an unknown type). -/
structure Handlers where
  get_msg_cols : String → List String
  process_msg_csv : String → Msg → Int → Option String → Except String (List (String × String))
  process_msg_img : String → Msg → Int → Option String → Except String (String × String)

/-- An open tabular sink as stored in `csv_writers[topic]`:
`{"file": csv_file, "writer": writer, "msg_type": msg_type}`.  The
writer's fixed column set is the `fieldnames` given to `csv.DictWriter`. -/
structure CsvSink where
  filePath : String
  msgType : String
  columns : List String
deriving DecidableEq, Repr

/-- An image-directory sink as stored in `img_writers[topic]`:
`{"directory": full_dir, "msg_type": msg_type}`. -/
structure ImgSink where
  directory : String
  msgType : String
deriving DecidableEq, Repr

/-- The mutable state of one `extract_single` invocation, together with
the file-system contents it touches and event logs for resource actions.
`csvFs` maps a CSV file path to its rows (each row a list of cells);
`opened`, `openHandles`, `closeEvents`, `headerWrites`, `mkdirEvents`
record, per topic or path, the resource events in order;
`imgWrites` records `(topic, cursor, file path)` for every saved image. -/
structure ExtractState where
  csv_writers : List (String × CsvSink)
  img_writers : List (String × ImgSink)
  topic_msg_counts : List (String × Int)
  csvFs : List (String × List (List String))
  imgWrites : List (String × Int × String)
  headerWrites : List String
  mkdirEvents : List String
  opened : List String
  openHandles : List String
  closeEvents : List String
deriving DecidableEq, Repr

/-- Update the first binding of `k` in an association list, or append a
fresh binding: the effect of a Python dict assignment `d[k] = v` on the
association-list view of the dict. -/
def updAssoc {β : Type} (l : List (String × β)) (k : String) (v : β) : List (String × β) :=
  match l with
  | [] => [(k, v)]
  | (k₁, v₁) :: rest => if k₁ == k then (k₁, v) :: rest else (k₁, v₁) :: updAssoc rest k v

/-- The sampling condition of line 89:
`(topic_idx >= start_idx) and (topic_idx < end_idx) and
(topic_idx % throttle_rate == 0)`. -/
def shouldKeep (cursor start_idx end_idx throttle_rate : Int) : Bool :=
  decide (cursor ≥ start_idx) && decide (cursor < end_idx) && (cursor % throttle_rate == 0)

/-- `[ topic_info for topic_info in extraction_config["data_schema"]
if topic_info["rosbag_topic"] == topic ][0]`, with the empty-list
(IndexError) case exposed as `none`. -/
def findTopicConfig (schema : List TopicConfig) (topic : String) : Option TopicConfig :=
  (schema.filter (fun ti => ti.rosbag_topic == topic)).head?

/-- `csv.DictWriter.writerow` semantics with the default
`restval=''`, `extrasaction='raise'`: a key of the row dict outside the
fixed `fieldnames` raises ValueError; otherwise one cell per column is
written in column order, a missing key contributing the rest value. -/
def dictWriterRow (columns : List String) (row : List (String × String)) : Except String (List String) :=
  if row.all (fun kv => columns.contains kv.1) then
    Except.ok (columns.map (fun c => ((List.lookup c row).getD "")))
  else
    Except.error "ValueError"

/-- Lines 93-102: on first sight of a csv topic, mkdir the bag output
directory, open the CSV file with mode `w` (truncating any prior
contents), write the header row, and register the sink in
`csv_writers`.  When the topic already has a sink, no effect.  This is
the success-path view, taking lines 95-102 as one atomic step; the
refined `createCsvSinkF` below also models a raise between the `open`
of line 97 and the registration of line 102. -/
def createCsvSink (H : Handlers) (tc : TopicConfig) (output_dir bag_name : String)
    (m : Msg) (s : ExtractState) : ExtractState :=
  if (List.lookup m.topic s.csv_writers).isNone then
    let parentDir := output_dir ++ "/" ++ bag_name
    let csv_file_path := output_dir ++ "/" ++ bag_name ++ "/" ++ tc.output_dir ++ ".csv"
    let cols := H.get_msg_cols m.msgType
    { s with
      mkdirEvents := s.mkdirEvents ++ [parentDir],
      csvFs := updAssoc s.csvFs csv_file_path [cols],
      opened := s.opened ++ [m.topic],
      openHandles := s.openHandles ++ [m.topic],
      headerWrites := s.headerWrites ++ [m.topic],
      csv_writers := s.csv_writers ++ [(m.topic, ⟨csv_file_path, m.msgType, cols⟩)] }
  else s

/-- Lines 105-106: extract the message fields and append one row to the
CSV file of the topic through its registered writer. -/
def writeCsvRow (H : Handlers) (tc : TopicConfig) (m : Msg) (s : ExtractState) :
    Except String ExtractState :=
  match List.lookup m.topic s.csv_writers with
  | none => Except.error "KeyError"
  | some sink =>
    match H.process_msg_csv m.msgType m m.stamp tc.extra_options with
    | Except.error e => Except.error e
    | Except.ok processed =>
      match dictWriterRow sink.columns processed with
      | Except.error e => Except.error e
      | Except.ok cells =>
        Except.ok { s with
          csvFs := updAssoc s.csvFs sink.filePath
            (((List.lookup sink.filePath s.csvFs).getD []) ++ [cells]) }

/-- The csv output branch (lines 92-106). -/
def handleCsv (H : Handlers) (tc : TopicConfig) (output_dir bag_name : String)
    (m : Msg) (s : ExtractState) : Except String ExtractState :=
  writeCsvRow H tc m (createCsvSink H tc output_dir bag_name m s)

/-- Lines 109-112: on first sight of an image topic, mkdir the image
directory and register it in `img_writers`; otherwise no effect. -/
def createImgSink (tc : TopicConfig) (output_dir bag_name : String)
    (m : Msg) (s : ExtractState) : ExtractState :=
  if (List.lookup m.topic s.img_writers).isNone then
    let full_dir := output_dir ++ "/" ++ bag_name ++ "/" ++ tc.output_dir
    { s with
      mkdirEvents := s.mkdirEvents ++ [full_dir],
      img_writers := s.img_writers ++ [(m.topic, ⟨full_dir, m.msgType⟩)] }
  else s

/-- Lines 114-115: extract the image and save it under the file name
`{topic_msg_counts[topic]}.png` inside the topic output directory. -/
def writeImg (H : Handlers) (tc : TopicConfig) (output_dir bag_name : String)
    (m : Msg) (s : ExtractState) : Except String ExtractState :=
  match H.process_msg_img m.msgType m m.stamp tc.extra_options with
  | Except.error e => Except.error e
  | Except.ok _processed =>
    let cursorNow := (List.lookup m.topic s.topic_msg_counts).getD 0
    let imgPath := output_dir ++ "/" ++ bag_name ++ "/" ++ tc.output_dir ++ "/"
      ++ toString cursorNow ++ ".png"
    Except.ok { s with imgWrites := s.imgWrites ++ [(m.topic, cursorNow, imgPath)] }

/-- The dir_of_imgs output branch (lines 108-115). -/
def handleImg (H : Handlers) (tc : TopicConfig) (output_dir bag_name : String)
    (m : Msg) (s : ExtractState) : Except String ExtractState :=
  writeImg H tc output_dir bag_name m (createImgSink tc output_dir bag_name m s)

/-- Lines 117-121, the bookkeeping after the extraction switch:
`topic_msg_counts[topic] += 1`, with the bare `except` setting the count
to 1 when the key was absent — in both cases the stored count becomes
the previous count (0 when absent) plus one. -/
def bumpCount (s : ExtractState) (topic : String) : ExtractState :=
  { s with topic_msg_counts :=
      updAssoc s.topic_msg_counts topic (((List.lookup topic s.topic_msg_counts).getD 0) + 1) }

/-- The body of the per-message loop before the bookkeeping
(lines 84-115): skip unconfigured topics; otherwise look up the cursor
and the topic configuration, evaluate the sampling condition, and
dispatch on the output type. -/
def dispatchMsg (H : Handlers) (schema : List TopicConfig) (output_dir bag_name : String)
    (s : ExtractState) (m : Msg) : Except String ExtractState :=
  if (schema.map (fun ti => ti.rosbag_topic)).contains m.topic then
    match findTopicConfig schema m.topic with
    | none => Except.error "IndexError"
    | some tc =>
      let topic_idx := (List.lookup m.topic s.topic_msg_counts).getD 0
      if shouldKeep topic_idx tc.start_idx tc.end_idx tc.throttle_rate then
        if tc.output_type == "csv" then
          handleCsv H tc output_dir bag_name m s
        else if tc.output_type == "dir_of_imgs" then
          handleImg H tc output_dir bag_name m s
        else Except.ok s
      else Except.ok s
  else Except.ok s

/-- One full iteration of the message loop: dispatch, then bookkeeping.
An exception anywhere in the iteration propagates (the increment of a
failing message does not happen). -/
def processMessage (H : Handlers) (schema : List TopicConfig) (output_dir bag_name : String)
    (s : ExtractState) (m : Msg) : Except String ExtractState :=
  match dispatchMsg H schema output_dir bag_name s m with
  | Except.error e => Except.error e
  | Except.ok s₁ => Except.ok (bumpCount s₁ m.topic)

/-- The message loop of `extract_single`: process messages in bag order
until exhaustion or the first exception; returns the state reached and
the exception, if any.  On an exception this success-path view returns
the state from before the failing message; the refined `runMessagesF`
below keeps the failing message's side effects, as Python does. -/
def runMessages (H : Handlers) (schema : List TopicConfig) (output_dir bag_name : String) :
    List Msg → ExtractState → ExtractState × Option String
  | [], s => (s, none)
  | m :: rest, s =>
    match processMessage H schema output_dir bag_name s m with
    | Except.ok s₁ => runMessages H schema output_dir bag_name rest s₁
    | Except.error e => (s, some e)

/-- The `finally` block (lines 125-128): `value["file"].close()` for
every entry of `csv_writers`, one close event per registered sink.
Here every close succeeds; the refined `closeAllF` below also models a
raising `close()`, which aborts the unguarded loop. -/
def closeAll (s : ExtractState) : ExtractState :=
  s.csv_writers.foldl
    (fun st kv =>
      { st with
        openHandles := st.openHandles.erase kv.1,
        closeEvents := st.closeEvents ++ [kv.1] })
    s

/-- The setup of lines 66-71: empty writer dicts, all configured topics
with count 0, and the pre-existing file-system contents. -/
def initState (schema : List TopicConfig) (fs₀ : List (String × List (List String))) :
    ExtractState :=
  { csv_writers := []
    img_writers := []
    topic_msg_counts := (schema.map (fun ti => ti.rosbag_topic)).map (fun t => (t, 0))
    csvFs := fs₀
    imgWrites := []
    headerWrites := []
    mkdirEvents := []
    opened := []
    openHandles := []
    closeEvents := [] }

/-- Python `str.split("/")` on the character list of a string: groups of
characters separated by every occurrence of `/`. -/
def splitOnSlash : List Char → List (List Char)
  | [] => [[]]
  | c :: cs =>
    if c = '/' then [] :: splitOnSlash cs
    else
      match splitOnSlash cs with
      | [] => [[c]]
      | g :: gs => (c :: g) :: gs

/-- `rosbag_abs_path.split("/")[-1][:-4]`: the last path component with
its last four characters (the `.bag` extension) removed. -/
def bag_name_of (path : String) : String :=
  let last := (splitOnSlash path.data).getLastD []
  ⟨last.take (last.length - 4)⟩

/-- `extract_single`: run the message loop over the bag contents inside
try/finally, the finally block closing every registered CSV file whether
the loop ended by exhaustion or by an exception. -/
def extract_single (H : Handlers) (extraction_config : List TopicConfig)
    (rosbag_abs_path : String) (msgs : List Msg) (output_dir : String)
    (fs₀ : List (String × List (List String))) : ExtractState × Option String :=
  let bag_name := bag_name_of rosbag_abs_path
  let r := runMessages H extraction_config output_dir bag_name msgs
    (initState extraction_config fs₀)
  (closeAll r.1, r.2)

/-- A directory entry seen by the batch driver: a file name and its size. -/
structure FileEntry where
  name : String
  size : Nat
deriving DecidableEq, Repr

/-- The `*.bag` glob pattern: the name ends with the four characters
`.bag`. -/
def hasBagSuffix (name : String) : Bool :=
  decide (4 ≤ name.data.length) && (name.data.drop (name.data.length - 4) == ['.', 'b', 'a', 'g'])

/-- `file.name.startswith('.')`. -/
def isDotPrefixed (name : String) : Bool :=
  match name.data with
  | [] => false
  | c :: _ => c == '.'

/-- Lines 133-135: `Path(dir).glob('*.bag')` filtered of dot-prefixed
names, then sorted ascending by file size (Python sort, a stable sort,
modelled by a stable insertion sort). -/
def list_o_bags (files : List FileEntry) : List FileEntry :=
  List.insertionSort (fun a b => a.size ≤ b.size)
    (files.filter (fun f => hasBagSuffix f.name && !(isDotPrefixed f.name)))

instance : IsTotal FileEntry (fun a b => a.size ≤ b.size) :=
  ⟨fun a b => Nat.le_total a.size b.size⟩

instance : IsTrans FileEntry (fun a b => a.size ≤ b.size) :=
  ⟨fun _ _ _ h₁ h₂ => Nat.le_trans h₁ h₂⟩

/-- The driver loop of `extract_all` (lines 141-144): process the
selected bags one by one.  `extract_single` is not wrapped in any
exception handler, so an exception from one bag stops the loop and
propagates; the CSV contents written so far carry over to the next bag. -/
def extractAllGo (H : Handlers) (extraction_config : List TopicConfig)
    (rosbag_abs_path : String) (contents : String → List Msg) (output_dir : String) :
    List FileEntry → List (String × List (List String)) →
      List (String × ExtractState) × Option String
  | [], _ => ([], none)
  | f :: rest, fs₀ =>
    let path := rosbag_abs_path ++ "/" ++ f.name
    let r := extract_single H extraction_config path (contents path) output_dir fs₀
    match r.2 with
    | none =>
      let rTail := extractAllGo H extraction_config rosbag_abs_path contents output_dir
        rest r.1.csvFs
      ((path, r.1) :: rTail.1, rTail.2)
    | some e => ([(path, r.1)], some e)

/-- `extract_all`: select and order the bags of the directory, then run
`extract_single` over each in that order. -/
def extract_all (H : Handlers) (extraction_config : List TopicConfig)
    (rosbag_abs_path : String) (files : List FileEntry) (contents : String → List Msg)
    (output_dir : String) : List (String × ExtractState) × Option String :=
  extractAllGo H extraction_config rosbag_abs_path contents output_dir
    (list_o_bags files) []

/-- Lines 163-166 of `__main__`: `if topic_info["end_idx"] == -1:
topic_info["end_idx"] = int(9E15)`. -/
def infer_end_idx (e : Int) : Int :=
  if e == -1 then 9000000000000000 else e

/-- The `__main__` configuration fix-up applied to every schema entry. -/
def infer_config (schema : List TopicConfig) : List TopicConfig :=
  schema.map (fun tc => { tc with end_idx := infer_end_idx tc.end_idx })

/-- The cursor values in `[0, n)` accepted by the sampling condition of
a schema entry. -/
def acceptedIdxs (tc : TopicConfig) (n : Nat) : List Int :=
  ((List.range n).map (fun i => (i : Int))).filter
    (fun i => shouldKeep i tc.start_idx tc.end_idx tc.throttle_rate)

/-! ### Refined failure model of the sink lifecycle

The per-message definitions above are the success-path view used by the
functional claims: sink construction is one atomic step and the column
lookup is total.  In the source, lines 97-101 separate
`open(csv_file_path, 'w')` from the registration
`csv_writers[topic] = ...` by two fallible operations —
`get_msg_cols(msg_type)`, which the registry contract says fails on an
unknown message type, and `writer.writeheader()`, a file write — and
the `finally` loop of lines 127-128 calls `file.close()` unguarded.
The refined definitions below make those failure points explicit and
keep the state reached at the exception point, as Python does (side
effects of a failing statement sequence persist). -/

/-- The field-extractor registry with a fallible column lookup:
`get_msg_cols` fails with UnsupportedMessageType on an unknown message
type (registry contract; `data_handler` is an external collaborator). -/
structure HandlersF where
  get_msg_cols : String → Except String (List String)
  process_msg_csv : String → Msg → Int → Option String → Except String (List (String × String))
  process_msg_img : String → Msg → Int → Option String → Except String (String × String)

/-- The file-system failure oracle: whether `writer.writeheader()`
raises for a given CSV path, and whether `file.close()` raises for a
given topic's writer in the finally loop. -/
structure FsEnv where
  writeheader_raises : String → Option String
  close_raises : String → Option String

/-- Lines 93-102 with the failure window explicit: mkdir, then `open`
with mode `w` — the handle is now open, recorded in `opened` and
`openHandles`, and the file truncated — then the column lookup and the
header write, either of which can raise with the handle open but the
sink not yet registered, and only then the registration in
`csv_writers`.  On an exception the state at the raise point is kept. -/
def createCsvSinkF (H : HandlersF) (env : FsEnv) (tc : TopicConfig)
    (output_dir bag_name : String) (m : Msg) (s : ExtractState) :
    ExtractState × Option String :=
  if (List.lookup m.topic s.csv_writers).isNone then
    let parentDir := output_dir ++ "/" ++ bag_name
    let csv_file_path := output_dir ++ "/" ++ bag_name ++ "/" ++ tc.output_dir ++ ".csv"
    let s₁ := { s with
      mkdirEvents := s.mkdirEvents ++ [parentDir],
      csvFs := updAssoc s.csvFs csv_file_path [],
      opened := s.opened ++ [m.topic],
      openHandles := s.openHandles ++ [m.topic] }
    match H.get_msg_cols m.msgType with
    | Except.error e => (s₁, some e)
    | Except.ok cols =>
      match env.writeheader_raises csv_file_path with
      | some e => (s₁, some e)
      | none =>
        ({ s₁ with
          csvFs := updAssoc s₁.csvFs csv_file_path [cols],
          headerWrites := s₁.headerWrites ++ [m.topic],
          csv_writers := s₁.csv_writers ++ [(m.topic, ⟨csv_file_path, m.msgType, cols⟩)] },
          none)
  else (s, none)

/-- Lines 105-106 in the refined model: extraction and the row write,
returning the state unchanged at the exception point on a raise. -/
def writeCsvRowF (H : HandlersF) (tc : TopicConfig) (m : Msg) (s : ExtractState) :
    ExtractState × Option String :=
  match List.lookup m.topic s.csv_writers with
  | none => (s, some "KeyError")
  | some sink =>
    match H.process_msg_csv m.msgType m m.stamp tc.extra_options with
    | Except.error e => (s, some e)
    | Except.ok processed =>
      match dictWriterRow sink.columns processed with
      | Except.error e => (s, some e)
      | Except.ok cells =>
        ({ s with csvFs :=
            updAssoc s.csvFs sink.filePath (((List.lookup sink.filePath s.csvFs).getD []) ++ [cells]) },
          none)

/-- The csv branch (lines 92-106) in the refined model. -/
def handleCsvF (H : HandlersF) (env : FsEnv) (tc : TopicConfig)
    (output_dir bag_name : String) (m : Msg) (s : ExtractState) :
    ExtractState × Option String :=
  match (createCsvSinkF H env tc output_dir bag_name m s).2 with
  | some e => ((createCsvSinkF H env tc output_dir bag_name m s).1, some e)
  | none => writeCsvRowF H tc m (createCsvSinkF H env tc output_dir bag_name m s).1

/-- Lines 114-115 in the refined model: image extraction and save,
keeping the state at the exception point on a raise. -/
def writeImgF (H : HandlersF) (tc : TopicConfig) (output_dir bag_name : String)
    (m : Msg) (s : ExtractState) : ExtractState × Option String :=
  match H.process_msg_img m.msgType m m.stamp tc.extra_options with
  | Except.error e => (s, some e)
  | Except.ok _processed =>
    let cursorNow := (List.lookup m.topic s.topic_msg_counts).getD 0
    let imgPath := output_dir ++ "/" ++ bag_name ++ "/" ++ tc.output_dir ++ "/"
      ++ toString cursorNow ++ ".png"
    ({ s with imgWrites := s.imgWrites ++ [(m.topic, cursorNow, imgPath)] }, none)

/-- The dir_of_imgs branch (lines 108-115) in the refined model: the
directory creation of lines 109-112 (infallible with `exist_ok=True`),
then the save. -/
def handleImgF (H : HandlersF) (tc : TopicConfig) (output_dir bag_name : String)
    (m : Msg) (s : ExtractState) : ExtractState × Option String :=
  writeImgF H tc output_dir bag_name m (createImgSink tc output_dir bag_name m s)

/-- The per-message dispatch (lines 84-115) in the refined model. -/
def dispatchMsgF (H : HandlersF) (env : FsEnv) (schema : List TopicConfig)
    (output_dir bag_name : String) (s : ExtractState) (m : Msg) :
    ExtractState × Option String :=
  if (schema.map (fun ti => ti.rosbag_topic)).contains m.topic then
    match findTopicConfig schema m.topic with
    | none => (s, some "IndexError")
    | some tc =>
      let topic_idx := (List.lookup m.topic s.topic_msg_counts).getD 0
      if shouldKeep topic_idx tc.start_idx tc.end_idx tc.throttle_rate then
        if tc.output_type == "csv" then
          handleCsvF H env tc output_dir bag_name m s
        else if tc.output_type == "dir_of_imgs" then
          handleImgF H tc output_dir bag_name m s
        else (s, none)
      else (s, none)
  else (s, none)

/-- One loop iteration in the refined model: a raising message keeps
its side effects but skips its cursor increment. -/
def processMessageF (H : HandlersF) (env : FsEnv) (schema : List TopicConfig)
    (output_dir bag_name : String) (s : ExtractState) (m : Msg) :
    ExtractState × Option String :=
  match (dispatchMsgF H env schema output_dir bag_name s m).2 with
  | some e => ((dispatchMsgF H env schema output_dir bag_name s m).1, some e)
  | none => (bumpCount (dispatchMsgF H env schema output_dir bag_name s m).1 m.topic, none)

/-- The message loop in the refined model: the state reached at the
first exception is kept, the failing message's side effects included. -/
def runMessagesF (H : HandlersF) (env : FsEnv) (schema : List TopicConfig)
    (output_dir bag_name : String) :
    List Msg → ExtractState → ExtractState × Option String
  | [], s => (s, none)
  | m :: rest, s =>
    match (processMessageF H env schema output_dir bag_name s m).2 with
    | none => runMessagesF H env schema output_dir bag_name rest
        (processMessageF H env schema output_dir bag_name s m).1
    | some e => ((processMessageF H env schema output_dir bag_name s m).1, some e)

/-- The finally loop (lines 127-128) in the refined model: closes the
registered writers in order; a raising `close()` aborts the loop,
leaving that writer and all remaining writers unclosed. -/
def closeListF (env : FsEnv) : List (String × CsvSink) → ExtractState →
    ExtractState × Option String
  | [], st => (st, none)
  | kv :: rest, st =>
    match env.close_raises kv.1 with
    | some e => (st, some e)
    | none =>
      closeListF env rest
        { st with
          openHandles := st.openHandles.erase kv.1,
          closeEvents := st.closeEvents ++ [kv.1] }

/-- The whole finally block in the refined model. -/
def closeAllF (env : FsEnv) (s : ExtractState) : ExtractState × Option String :=
  closeListF env s.csv_writers s

/-- `extract_single` in the refined model: run the loop, then the
finally block; an exception raised by a `close()` inside the finally
block replaces the in-flight exception. -/
def extract_singleF (H : HandlersF) (env : FsEnv)
    (extraction_config : List TopicConfig) (rosbag_abs_path : String)
    (msgs : List Msg) (output_dir : String)
    (fs₀ : List (String × List (List String))) : ExtractState × Option String :=
  let bag_name := bag_name_of rosbag_abs_path
  let r := runMessagesF H env extraction_config output_dir bag_name msgs
    (initState extraction_config fs₀)
  let c := closeAllF env r.1
  (c.1, match c.2 with | some e => some e | none => r.2)

/-- Resource invariant of the refined message loop in failure-free
states: nothing closed yet, the open handles are exactly the opened
ones, every opened handle is a registered sink, keys distinct. -/
def ResourceInvF (s : ExtractState) : Prop :=
  s.closeEvents = [] ∧
  s.openHandles = s.opened ∧
  s.opened = s.csv_writers.map Prod.fst ∧
  (s.csv_writers.map Prod.fst).Nodup

/-- State shape at an exception: nothing closed yet, open handles are
the opened ones, and the opened handles are the registered sinks plus
at most one handle opened by the failing message but never registered
(the open-to-register window of lines 97-101). -/
def LeakShape (s : ExtractState) : Prop :=
  s.closeEvents = [] ∧
  s.openHandles = s.opened ∧
  s.opened.Nodup ∧
  ∃ leak : List String,
    s.opened = s.csv_writers.map Prod.fst ++ leak ∧ leak.length ≤ 1

/-! ### Concrete instances used to evaluate the model -/

/-- A configuration with a single csv topic. -/
def oneCsvTopic : List TopicConfig :=
  [{ rosbag_topic := "/t", output_dir := "tab", output_type := "csv",
     start_idx := 0, end_idx := 1000, throttle_rate := 1, extra_options := none }]

/-- A registry whose csv extractor succeeds with a one-column row. -/
def goodHandlers : Handlers :=
  { get_msg_cols := fun _ => ["a"]
    process_msg_csv := fun _ _ _ _ => Except.ok [("a", "1")]
    process_msg_img := fun _ _ _ _ => Except.ok ("img", "meta") }

/-- A registry whose columns are `["a", "b"]` but whose csv extractor
returns a row carrying only the key `"a"`. -/
def padHandlers : Handlers :=
  { get_msg_cols := fun _ => ["a", "b"]
    process_msg_csv := fun _ _ _ _ => Except.ok [("a", "1")]
    process_msg_img := fun _ _ _ _ => Except.ok ("img", "meta") }

/-- A registry whose csv extractor raises on every message. -/
def failHandlers : Handlers :=
  { get_msg_cols := fun _ => ["a"]
    process_msg_csv := fun _ _ _ _ => Except.error "boom"
    process_msg_img := fun _ _ _ _ => Except.ok ("img", "meta") }

/-- Bag contents for a batch run: only `d/b2.bag` carries a message on
the configured topic, the other bags are empty. -/
def oneBadBagContents : String → List Msg :=
  fun path => if path == "d/b2.bag" then [⟨"/t", "T", 0⟩] else []

/-- Bag contents for a batch run in which every bag is empty. -/
def emptyContents : String → List Msg :=
  fun _ => []

/-- A refined registry whose column lookup fails — an unknown message
type — while both extractors succeed. -/
def unkTypeHandlers : HandlersF :=
  { get_msg_cols := fun _ => Except.error "UnsupportedMessageType"
    process_msg_csv := fun _ _ _ _ => Except.ok [("a", "1")]
    process_msg_img := fun _ _ _ _ => Except.ok ("img", "meta") }

/-- A refined registry where every operation succeeds. -/
def okHandlersF : HandlersF :=
  { get_msg_cols := fun _ => Except.ok ["a"]
    process_msg_csv := fun _ _ _ _ => Except.ok [("a", "1")]
    process_msg_img := fun _ _ _ _ => Except.ok ("img", "meta") }

/-- The quiet file system: no header write and no close ever raises. -/
def quietEnv : FsEnv :=
  { writeheader_raises := fun _ => none
    close_raises := fun _ => none }

/-- A file system in which closing the writer of topic `/t1` raises. -/
def closeFailEnv : FsEnv :=
  { writeheader_raises := fun _ => none
    close_raises := fun t => if t == "/t1" then some "IOError" else none }

/-- A configuration with two csv topics. -/
def twoCsvTopics : List TopicConfig :=
  [{ rosbag_topic := "/t1", output_dir := "tab1", output_type := "csv",
     start_idx := 0, end_idx := 1000, throttle_rate := 1, extra_options := none },
   { rosbag_topic := "/t2", output_dir := "tab2", output_type := "csv",
     start_idx := 0, end_idx := 1000, throttle_rate := 1, extra_options := none }]

end ExtractBag

namespace ExtractBag

/-! ### Association-list helper lemmas -/

theorem lookup_updAssoc_self {β : Type} (l : List (String × β)) (k : String) (v : β) :
    List.lookup k (updAssoc l k v) = some v := by
  induction l with
  | nil => simp [updAssoc, List.lookup]
  | cons p rest ih =>
    obtain ⟨k₁, v₁⟩ := p
    by_cases h : k₁ = k
    · subst h; simp [updAssoc, List.lookup]
    · have hb : (k₁ == k) = false := by simp [h]
      have hb' : (k == k₁) = false := by simp [Ne.symm h]
      simp [updAssoc, List.lookup, hb, hb', ih]

theorem lookup_updAssoc_ne {β : Type} (l : List (String × β)) (k k₁ : String) (v : β)
    (h : k₁ ≠ k) : List.lookup k₁ (updAssoc l k v) = List.lookup k₁ l := by
  have hb : (k₁ == k) = false := by simp [h]
  induction l with
  | nil => simp [updAssoc, List.lookup, hb]
  | cons p rest ih =>
    obtain ⟨k₂, v₂⟩ := p
    by_cases h₂ : k₂ = k
    · subst h₂
      have hb₂ : (k₁ == k₂) = false := by simp [h]
      simp [updAssoc, List.lookup, hb₂]
    · have hb₂ : (k₂ == k) = false := by simp [h₂]
      by_cases h₃ : k₁ = k₂
      · subst h₃; simp [updAssoc, List.lookup, hb₂]
      · have hb₃ : (k₁ == k₂) = false := by simp [h₃]
        simp [updAssoc, List.lookup, hb₂, hb₃, ih]

theorem lookup_append_of_none {β : Type} (l l' : List (String × β)) (k : String)
    (h : List.lookup k l = none) : List.lookup k (l ++ l') = List.lookup k l' := by
  induction l with
  | nil => simp
  | cons p rest ih =>
    obtain ⟨k₁, v₁⟩ := p
    by_cases hk : k == k₁
    · simp [List.lookup, hk] at h
    · simp only [List.lookup, List.cons_append, hk] at h ⊢
      exact ih h

end ExtractBag

namespace ExtractBag

/-! ### Claim C2: the sampling characterization -/

/-- C2: for every non-negative cursor, non-negative start, any end and
positive stride, the sampling decision keeps a message iff
`cursor >= start` and `cursor < end` and `cursor mod stride == 0`; in
particular with stride 1 every index in `[start, end)` is kept. -/
theorem shouldKeep_characterization (cursor start_idx end_idx stride : Int)
    (hc : 0 ≤ cursor) (hs : 0 ≤ start_idx) (hst : 0 < stride) :
    (shouldKeep cursor start_idx end_idx stride = true ↔
      (start_idx ≤ cursor ∧ cursor < end_idx ∧ cursor % stride = 0)) ∧
    (stride = 1 →
      (shouldKeep cursor start_idx end_idx stride = true ↔
        (start_idx ≤ cursor ∧ cursor < end_idx))) := by
  constructor
  · simp [shouldKeep, and_assoc]
  · intro h
    subst h
    simp [shouldKeep, Int.emod_one, and_assoc]

/-- C2 witness: the characterization evaluated at cursor 4, start 2,
end 10, stride 2. -/
theorem shouldKeep_characterization_witness :
    shouldKeep 4 2 10 2 = true ↔ ((2 : Int) ≤ 4 ∧ (4 : Int) < 10 ∧ (4 : Int) % 2 = 0) :=
  (shouldKeep_characterization 4 2 10 2 (by decide) (by decide) (by decide)).1

/-! ### Claim C4: the unbounded `end_idx` sentinel -/

/-- C4 counterexample: `end_idx = -1` is translated to the finite magic
number `int(9E15)`, not an unbounded sentinel, and a cursor of
`9*10^15` is no longer eligible even with start 0 and stride 1. -/
theorem infer_end_idx_finite_counterexample :
    infer_end_idx (-1) = 9000000000000000 ∧
    shouldKeep 9000000000000000 0 (infer_end_idx (-1)) 1 = false := by
  constructor
  · rfl
  · decide

/-- C4 amended: the `-1` sentinel is translated to the finite constant
`9*10^15` which is visible to the sampling comparison: every cursor
meeting start and stride below that constant stays eligible, and every
cursor at or above it is rejected. -/
theorem infer_end_idx_translation (cursor start_idx stride : Int)
    (h₁ : start_idx ≤ cursor) (h₂ : cursor < 9000000000000000)
    (h₃ : cursor % stride = 0) :
    infer_end_idx (-1) = 9000000000000000 ∧
    shouldKeep cursor start_idx (infer_end_idx (-1)) stride = true ∧
    (∀ c : Int, 9000000000000000 ≤ c →
      shouldKeep c start_idx (infer_end_idx (-1)) stride = false) := by
  refine ⟨rfl, ?_, ?_⟩
  · simp only [infer_end_idx]
    norm_num
    simp [shouldKeep, h₁, h₂, h₃]
  · intro c hc
    simp only [infer_end_idx]
    norm_num
    simp only [shouldKeep, Bool.and_eq_false_iff]
    left
    right
    simp
    omega

/-- C4 witness: the amended statement evaluated at cursor 12, start 3,
stride 3. -/
theorem infer_end_idx_translation_witness :
    infer_end_idx (-1) = 9000000000000000 ∧
    shouldKeep 12 3 (infer_end_idx (-1)) 3 = true ∧
    (∀ c : Int, 9000000000000000 ≤ c →
      shouldKeep c 3 (infer_end_idx (-1)) 3 = false) :=
  infer_end_idx_translation 12 3 3 (by decide) (by decide) (by decide)

end ExtractBag

namespace ExtractBag

/-! ### Topic-configuration lookup lemmas -/

theorem findTopicConfig_mem (schema : List TopicConfig) (topic : String) (tc : TopicConfig)
    (h : findTopicConfig schema topic = some tc) :
    tc ∈ schema ∧ tc.rosbag_topic = topic := by
  induction schema with
  | nil => simp [findTopicConfig] at h
  | cons a rest ih =>
    cases hb : (a.rosbag_topic == topic) with
    | true =>
      have ha : a = tc := by
        simpa [findTopicConfig, List.filter_cons, hb] using h
      subst ha
      exact ⟨by simp, by simpa using hb⟩
    | false =>
      simp only [findTopicConfig, List.filter_cons, hb] at h
      obtain ⟨hm, he⟩ := ih h
      exact ⟨List.mem_cons_of_mem a hm, he⟩

theorem contains_topic_of_find (schema : List TopicConfig) (topic : String) (tc : TopicConfig)
    (h : findTopicConfig schema topic = some tc) :
    (schema.map (fun ti => ti.rosbag_topic)).contains topic = true := by
  obtain ⟨hm, he⟩ := findTopicConfig_mem schema topic tc h
  rw [← he]
  simpa using List.mem_map_of_mem (fun ti => ti.rosbag_topic) hm

end ExtractBag

namespace ExtractBag

/-! ### Claim C6: tabular rows with mismatched field sets -/

/-- C6 counterexample: a row whose key set `{a}` differs from the fixed
column set `{a, b}` does not fail — the row writer silently pads the
missing column with the empty rest value, and a one-message bag whose
extractor produces such a row completes without error, its CSV holding
the padded row. -/
theorem writerow_missing_key_padded_counterexample :
    dictWriterRow ["a", "b"] [("a", "1")] = Except.ok ["1", ""] ∧
    (extract_single padHandlers oneCsvTopic "d/b.bag" [⟨"/t", "T", 0⟩] "out" []).2 = none ∧
    List.lookup "out/b/tab.csv"
      (extract_single padHandlers oneCsvTopic "d/b.bag" [⟨"/t", "T", 0⟩] "out" []).1.csvFs
      = some [["a", "b"], ["1", ""]] := by
  refine ⟨rfl, rfl, by decide⟩

/-- C6 amended: a row carrying a key outside the sink's fixed column set
fails (the ValueError of `csv.DictWriter`) — and any such per-message
failure halts the remaining messages of the bag; a row whose keys are a
proper subset of the columns is instead written silently, each missing
column padded with the empty rest value, in fixed column order. -/
theorem dictWriterRow_key_check (columns : List String) (row : List (String × String)) :
    (dictWriterRow columns row = Except.error "ValueError" ↔
      ¬ (∀ kv ∈ row, kv.1 ∈ columns)) ∧
    ((∀ kv ∈ row, kv.1 ∈ columns) →
      dictWriterRow columns row =
        Except.ok (columns.map (fun c => (List.lookup c row).getD ""))) ∧
    (∀ (H : Handlers) (schema : List TopicConfig) (od bn : String) (s : ExtractState)
        (m : Msg) (rest : List Msg) (e : String),
      processMessage H schema od bn s m = Except.error e →
      runMessages H schema od bn (m :: rest) s = (s, some e)) := by
  have hiff : (row.all (fun kv => columns.contains kv.1) = true) ↔
      (∀ kv ∈ row, kv.1 ∈ columns) := by
    simp [List.all_eq_true, List.elem_iff]
  refine ⟨?_, ?_, ?_⟩
  · by_cases hall : row.all (fun kv => columns.contains kv.1) = true
    · simp [dictWriterRow, hall, hiff.mp hall]
    · simp only [dictWriterRow, if_neg hall]
      constructor
      · exact fun _ hmem => hall (hiff.mpr hmem)
      · intro _
        trivial
  · intro hmem
    unfold dictWriterRow
    rw [if_pos (hiff.mpr hmem)]
  · intro H schema od bn s m rest e h
    simp [runMessages, h]

/-- C6 witness: the amended statement at concrete inputs — a padded
write for a row missing column `a`, and a bag halted by a raising
extractor. -/
theorem dictWriterRow_key_check_witness :
    dictWriterRow ["a", "b"] [("b", "2")] =
      Except.ok (["a", "b"].map (fun c => (List.lookup c [("b", "2")]).getD "")) ∧
    runMessages failHandlers oneCsvTopic "out" "b" [⟨"/t", "T", 0⟩]
      (initState oneCsvTopic []) = (initState oneCsvTopic [], some "boom") := by
  constructor
  · exact (dictWriterRow_key_check ["a", "b"] [("b", "2")]).2.1 (by decide)
  · exact (dictWriterRow_key_check ["a", "b"] [("b", "2")]).2.2 failHandlers oneCsvTopic
      "out" "b" (initState oneCsvTopic []) ⟨"/t", "T", 0⟩ [] "boom" (by rfl)

end ExtractBag

namespace ExtractBag

/-! ### Claim C10: sink creation truncates a pre-existing CSV file -/

/-- C10: creating a tabular sink opens the CSV path in truncating write
mode: whatever rows were previously stored at
`<output_dir>/<bag_name>/<output_dir_from_schema>.csv`, after the first
accepted message of the topic the file holds exactly the new header and
the first row — the prior contents are discarded, not appended to and
not reported as an error. -/
theorem csv_sink_truncates_prior_file (H : Handlers) (schema : List TopicConfig)
    (od bn : String) (s : ExtractState) (m : Msg) (tc : TopicConfig)
    (row : List (String × String)) (cells : List String) (prior : List (List String))
    (hfind : findTopicConfig schema m.topic = some tc)
    (htype : tc.output_type = "csv")
    (hnone : List.lookup m.topic s.csv_writers = none)
    (hkeep : shouldKeep ((List.lookup m.topic s.topic_msg_counts).getD 0)
      tc.start_idx tc.end_idx tc.throttle_rate = true)
    (hproc : H.process_msg_csv m.msgType m m.stamp tc.extra_options = Except.ok row)
    (hrow : dictWriterRow (H.get_msg_cols m.msgType) row = Except.ok cells)
    (hprior : List.lookup (od ++ "/" ++ bn ++ "/" ++ tc.output_dir ++ ".csv") s.csvFs
      = some prior) :
    Except.map (fun s₁ => List.lookup (od ++ "/" ++ bn ++ "/" ++ tc.output_dir ++ ".csv") s₁.csvFs)
      (processMessage H schema od bn s m)
      = Except.ok (some [H.get_msg_cols m.msgType, cells]) := by
  have hcontains := contains_topic_of_find schema m.topic tc hfind
  have hbt : (tc.output_type == "csv") = true := by simp [htype]
  have hisnone : (List.lookup m.topic s.csv_writers).isNone = true := by simp [hnone]
  simp only [processMessage, dispatchMsg, hcontains, if_true, hfind, hkeep, hbt,
    handleCsv, createCsvSink, hisnone, writeCsvRow,
    lookup_append_of_none _ _ _ hnone, List.lookup, beq_self_eq_true, hproc, hrow,
    lookup_updAssoc_self, Option.getD_some, bumpCount, Except.map]
  simp [lookup_updAssoc_self]

/-- C10 witness: a file at `out/b/tab.csv` holding a junk row is
replaced by the header and the first extracted row. -/
theorem csv_sink_truncates_prior_file_witness :
    Except.map
      (fun s₁ => List.lookup ("out" ++ "/" ++ "b" ++ "/" ++ "tab" ++ ".csv") s₁.csvFs)
      (processMessage goodHandlers oneCsvTopic "out" "b"
        (initState oneCsvTopic [("out/b/tab.csv", [["junk"]])]) ⟨"/t", "T", 0⟩)
      = Except.ok (some [goodHandlers.get_msg_cols "T", ["1"]]) :=
  csv_sink_truncates_prior_file goodHandlers oneCsvTopic "out" "b"
    (initState oneCsvTopic [("out/b/tab.csv", [["junk"]])]) ⟨"/t", "T", 0⟩
    { rosbag_topic := "/t", output_dir := "tab", output_type := "csv",
      start_idx := 0, end_idx := 1000, throttle_rate := 1, extra_options := none }
    [("a", "1")] ["1"] [["junk"]]
    (by decide) rfl (by decide) (by decide) rfl (by rfl) (by decide)

end ExtractBag

namespace ExtractBag

/-! ### Frame lemmas for the per-message step -/

theorem lookup_none_iff_not_mem_keys {β : Type} (l : List (String × β)) (k : String) :
    List.lookup k l = none ↔ k ∉ l.map Prod.fst := by
  induction l with
  | nil => simp [List.lookup]
  | cons p rest ih =>
    obtain ⟨k₁, v₁⟩ := p
    by_cases h : k = k₁
    · subst h; simp [List.lookup]
    · have hb : (k == k₁) = false := by simp [h]
      simp [List.lookup, hb, ih, h]

theorem writeCsvRow_frame (H : Handlers) (tc : TopicConfig) (m : Msg)
    (s s₁ : ExtractState) (h : writeCsvRow H tc m s = Except.ok s₁) :
    s₁.csv_writers = s.csv_writers ∧ s₁.img_writers = s.img_writers ∧
    s₁.topic_msg_counts = s.topic_msg_counts ∧ s₁.imgWrites = s.imgWrites ∧
    s₁.headerWrites = s.headerWrites ∧ s₁.mkdirEvents = s.mkdirEvents ∧
    s₁.opened = s.opened ∧ s₁.openHandles = s.openHandles ∧
    s₁.closeEvents = s.closeEvents := by
  unfold writeCsvRow at h
  split at h
  · simp at h
  · split at h
    · simp at h
    · split at h
      · simp at h
      · cases h
        simp

theorem createImgSink_frame (tc : TopicConfig) (od bn : String) (m : Msg)
    (s : ExtractState) :
    (createImgSink tc od bn m s).csv_writers = s.csv_writers ∧
    (createImgSink tc od bn m s).topic_msg_counts = s.topic_msg_counts ∧
    (createImgSink tc od bn m s).imgWrites = s.imgWrites ∧
    (createImgSink tc od bn m s).headerWrites = s.headerWrites ∧
    (createImgSink tc od bn m s).opened = s.opened ∧
    (createImgSink tc od bn m s).openHandles = s.openHandles ∧
    (createImgSink tc od bn m s).closeEvents = s.closeEvents ∧
    (createImgSink tc od bn m s).csvFs = s.csvFs := by
  unfold createImgSink
  split <;> simp

theorem writeImg_frame (H : Handlers) (tc : TopicConfig) (od bn : String) (m : Msg)
    (s s₁ : ExtractState) (h : writeImg H tc od bn m s = Except.ok s₁) :
    s₁.csv_writers = s.csv_writers ∧ s₁.img_writers = s.img_writers ∧
    s₁.topic_msg_counts = s.topic_msg_counts ∧ s₁.headerWrites = s.headerWrites ∧
    s₁.mkdirEvents = s.mkdirEvents ∧ s₁.opened = s.opened ∧
    s₁.openHandles = s.openHandles ∧ s₁.closeEvents = s.closeEvents ∧
    s₁.csvFs = s.csvFs := by
  unfold writeImg at h
  split at h
  · simp at h
  · cases h
    simp

end ExtractBag

namespace ExtractBag

/-! ### Claim C9: messages on unconfigured topics are skipped -/

/-- C9: a message whose topic is not in the configured schema is
processed without failure and without touching any sink, file, or event
log; the per-topic cursors of all configured topics are unchanged (only
the unconfigured topic's own bookkeeping entry is bumped, and that entry
is never consulted by any configured topic's extraction). -/
theorem unconfigured_topic_frame (H : Handlers) (schema : List TopicConfig)
    (od bn : String) (s : ExtractState) (m : Msg)
    (h : (schema.map (fun ti => ti.rosbag_topic)).contains m.topic = false) :
    processMessage H schema od bn s m = Except.ok (bumpCount s m.topic) ∧
    ((bumpCount s m.topic).csv_writers = s.csv_writers ∧
      (bumpCount s m.topic).img_writers = s.img_writers ∧
      (bumpCount s m.topic).csvFs = s.csvFs ∧
      (bumpCount s m.topic).imgWrites = s.imgWrites ∧
      (bumpCount s m.topic).headerWrites = s.headerWrites ∧
      (bumpCount s m.topic).mkdirEvents = s.mkdirEvents ∧
      (bumpCount s m.topic).opened = s.opened ∧
      (bumpCount s m.topic).openHandles = s.openHandles ∧
      (bumpCount s m.topic).closeEvents = s.closeEvents) ∧
    (∀ t : String, (schema.map (fun ti => ti.rosbag_topic)).contains t = true →
      List.lookup t (bumpCount s m.topic).topic_msg_counts
        = List.lookup t s.topic_msg_counts) := by
  refine ⟨?_, by simp [bumpCount], ?_⟩
  · unfold processMessage dispatchMsg
    simp only [h, Bool.false_eq_true, if_false]
  · intro t ht
    have hne : t ≠ m.topic := by
      intro e
      rw [e] at ht
      rw [ht] at h
      exact Bool.noConfusion h
    exact lookup_updAssoc_ne s.topic_msg_counts m.topic t _ hne

/-- C9 witness: a message on the unconfigured topic `/other` is skipped
and leaves the configured topic `/t` cursor unchanged. -/
theorem unconfigured_topic_frame_witness :
    processMessage goodHandlers oneCsvTopic "out" "b" (initState oneCsvTopic [])
        ⟨"/other", "T", 0⟩
      = Except.ok (bumpCount (initState oneCsvTopic []) "/other") ∧
    List.lookup "/t" (bumpCount (initState oneCsvTopic []) "/other").topic_msg_counts
      = List.lookup "/t" (initState oneCsvTopic []).topic_msg_counts :=
  ⟨(unconfigured_topic_frame goodHandlers oneCsvTopic "out" "b"
      (initState oneCsvTopic []) ⟨"/other", "T", 0⟩ (by decide)).1,
   (unconfigured_topic_frame goodHandlers oneCsvTopic "out" "b"
      (initState oneCsvTopic []) ⟨"/other", "T", 0⟩ (by decide)).2.2 "/t" (by decide)⟩

/-! ### Claim C7: sink creation is idempotent per topic per bag -/

/-- C7: when the topic of an incoming message already has its sink
(csv writer or image directory) registered, processing the message —
accepted or not — reuses that sink: the sink tables are unchanged, no
header is written again, no directory is created again, and no file is
opened again. -/
theorem sink_creation_idempotent (H : Handlers) (schema : List TopicConfig)
    (od bn : String) (s : ExtractState) (m : Msg) (s₁ : ExtractState)
    (hcsv : (findTopicConfig schema m.topic).all
      (fun tc => !(tc.output_type == "csv") || (List.lookup m.topic s.csv_writers).isSome)
      = true)
    (himg : (findTopicConfig schema m.topic).all
      (fun tc => !(tc.output_type == "dir_of_imgs")
        || (List.lookup m.topic s.img_writers).isSome) = true)
    (hok : processMessage H schema od bn s m = Except.ok s₁) :
    s₁.csv_writers = s.csv_writers ∧ s₁.img_writers = s.img_writers ∧
    s₁.headerWrites = s.headerWrites ∧ s₁.mkdirEvents = s.mkdirEvents ∧
    s₁.opened = s.opened ∧ s₁.openHandles = s.openHandles := by
  unfold processMessage at hok
  cases hd : dispatchMsg H schema od bn s m with
  | error e => rw [hd] at hok; simp at hok
  | ok s₂ =>
    rw [hd] at hok
    simp only [Except.ok.injEq] at hok
    subst hok
    have hfields : s₂.csv_writers = s.csv_writers ∧ s₂.img_writers = s.img_writers ∧
        s₂.headerWrites = s.headerWrites ∧ s₂.mkdirEvents = s.mkdirEvents ∧
        s₂.opened = s.opened ∧ s₂.openHandles = s.openHandles := by
      unfold dispatchMsg at hd
      cases hct : (schema.map (fun ti => ti.rosbag_topic)).contains m.topic with
      | false =>
        simp only [hct, Bool.false_eq_true, if_false] at hd
        cases hd
        exact ⟨rfl, rfl, rfl, rfl, rfl, rfl⟩
      | true =>
        simp only [hct, if_true] at hd
        cases hfind : findTopicConfig schema m.topic with
        | none => rw [hfind] at hd; simp at hd
        | some tc =>
          rw [hfind] at hd
          simp only at hd
          cases hk : shouldKeep ((List.lookup m.topic s.topic_msg_counts).getD 0)
              tc.start_idx tc.end_idx tc.throttle_rate with
          | false =>
            simp only [hk, Bool.false_eq_true, if_false] at hd
            cases hd
            exact ⟨rfl, rfl, rfl, rfl, rfl, rfl⟩
          | true =>
            simp only [hk, if_true] at hd
            cases hcsvb : (tc.output_type == "csv") with
            | true =>
              simp only [hcsvb, if_true] at hd
              rw [hfind] at hcsv
              simp only [Option.all_some, hcsvb, Bool.not_true, Bool.false_or] at hcsv
              have hfalse : (List.lookup m.topic s.csv_writers).isNone = false := by
                cases hl : List.lookup m.topic s.csv_writers with
                | none => rw [hl] at hcsv; simp at hcsv
                | some v => simp
              have hident : createCsvSink H tc od bn m s = s := by
                unfold createCsvSink
                simp only [hfalse, Bool.false_eq_true, if_false]
              unfold handleCsv at hd
              rw [hident] at hd
              obtain ⟨e1, e2, _, _, e5, e6, e7, e8, _⟩ :=
                writeCsvRow_frame H tc m s s₂ hd
              exact ⟨e1, e2, e5, e6, e7, e8⟩
            | false =>
              simp only [hcsvb, Bool.false_eq_true, if_false] at hd
              cases himgb : (tc.output_type == "dir_of_imgs") with
              | true =>
                simp only [himgb, if_true] at hd
                rw [hfind] at himg
                simp only [Option.all_some, himgb, Bool.not_true, Bool.false_or] at himg
                have hfalse : (List.lookup m.topic s.img_writers).isNone = false := by
                  cases hl : List.lookup m.topic s.img_writers with
                  | none => rw [hl] at himg; simp at himg
                  | some v => simp
                have hident : createImgSink tc od bn m s = s := by
                  unfold createImgSink
                  simp only [hfalse, Bool.false_eq_true, if_false]
                unfold handleImg at hd
                rw [hident] at hd
                obtain ⟨f1, f2, _, f4, f5, f6, f7, _, _⟩ :=
                  writeImg_frame H tc od bn m s s₂ hd
                exact ⟨f1, f2, f4, f5, f6, f7⟩
              | false =>
                simp only [himgb, Bool.false_eq_true, if_false] at hd
                cases hd
                exact ⟨rfl, rfl, rfl, rfl, rfl, rfl⟩
    exact hfields

/-- C7 witness: a second accepted message on topic `/t`, whose csv sink
already exists, leaves the sink table, header log, mkdir log and open
log unchanged. -/
theorem sink_creation_idempotent_witness :
    ({ csv_writers := [("/t", ⟨"out/b/tab.csv", "T", ["a"]⟩)]
       img_writers := []
       topic_msg_counts := [("/t", 1)]
       csvFs := [("out/b/tab.csv", [["a"], ["1"]])]
       imgWrites := []
       headerWrites := ["/t"]
       mkdirEvents := ["out/b"]
       opened := ["/t"]
       openHandles := ["/t"]
       closeEvents := [] } : ExtractState).csv_writers
      = [("/t", ⟨"out/b/tab.csv", "T", ["a"]⟩)] ∧
    processMessage goodHandlers oneCsvTopic "out" "b"
      { csv_writers := [("/t", ⟨"out/b/tab.csv", "T", ["a"]⟩)]
        img_writers := []
        topic_msg_counts := [("/t", 1)]
        csvFs := [("out/b/tab.csv", [["a"], ["1"]])]
        imgWrites := []
        headerWrites := ["/t"]
        mkdirEvents := ["out/b"]
        opened := ["/t"]
        openHandles := ["/t"]
        closeEvents := [] } ⟨"/t", "T", 1⟩
      = Except.ok
        { csv_writers := [("/t", ⟨"out/b/tab.csv", "T", ["a"]⟩)]
          img_writers := []
          topic_msg_counts := [("/t", 2)]
          csvFs := [("out/b/tab.csv", [["a"], ["1"], ["1"]])]
          imgWrites := []
          headerWrites := ["/t"]
          mkdirEvents := ["out/b"]
          opened := ["/t"]
          openHandles := ["/t"]
          closeEvents := [] } := by
  constructor
  · exact (sink_creation_idempotent goodHandlers oneCsvTopic "out" "b"
      { csv_writers := [("/t", ⟨"out/b/tab.csv", "T", ["a"]⟩)]
        img_writers := []
        topic_msg_counts := [("/t", 1)]
        csvFs := [("out/b/tab.csv", [["a"], ["1"]])]
        imgWrites := []
        headerWrites := ["/t"]
        mkdirEvents := ["out/b"]
        opened := ["/t"]
        openHandles := ["/t"]
        closeEvents := [] } ⟨"/t", "T", 1⟩
      { csv_writers := [("/t", ⟨"out/b/tab.csv", "T", ["a"]⟩)]
        img_writers := []
        topic_msg_counts := [("/t", 2)]
        csvFs := [("out/b/tab.csv", [["a"], ["1"], ["1"]])]
        imgWrites := []
        headerWrites := ["/t"]
        mkdirEvents := ["out/b"]
        opened := ["/t"]
        openHandles := ["/t"]
        closeEvents := [] } (by decide) (by decide) (by rfl)).1
  · rfl

end ExtractBag

namespace ExtractBag

/-! ### Step-shape lemmas for the cursor and image trace -/

theorem createCsvSink_frame (H : Handlers) (tc : TopicConfig) (od bn : String)
    (m : Msg) (s : ExtractState) :
    (createCsvSink H tc od bn m s).img_writers = s.img_writers ∧
    (createCsvSink H tc od bn m s).topic_msg_counts = s.topic_msg_counts ∧
    (createCsvSink H tc od bn m s).imgWrites = s.imgWrites ∧
    (createCsvSink H tc od bn m s).closeEvents = s.closeEvents := by
  unfold createCsvSink
  split <;> simp

theorem writeImg_shape (H : Handlers) (tc : TopicConfig) (od bn : String) (m : Msg)
    (s s₁ : ExtractState) (h : writeImg H tc od bn m s = Except.ok s₁) :
    s₁ = { s with imgWrites := s.imgWrites ++
      [(m.topic, (List.lookup m.topic s.topic_msg_counts).getD 0,
        od ++ "/" ++ bn ++ "/" ++ tc.output_dir ++ "/"
          ++ toString ((List.lookup m.topic s.topic_msg_counts).getD 0) ++ ".png")] } := by
  unfold writeImg at h
  split at h
  · simp at h
  · cases h
    rfl

theorem processMessage_step_shape (H : Handlers) (schema : List TopicConfig)
    (od bn : String) (s : ExtractState) (m : Msg) (s₁ : ExtractState)
    (h : processMessage H schema od bn s m = Except.ok s₁) :
    s₁.topic_msg_counts =
      updAssoc s.topic_msg_counts m.topic
        (((List.lookup m.topic s.topic_msg_counts).getD 0) + 1) ∧
    ∃ app : List (String × Int × String),
      s₁.imgWrites = s.imgWrites ++ app ∧ ∀ w ∈ app, w.1 = m.topic := by
  unfold processMessage at h
  cases hd : dispatchMsg H schema od bn s m with
  | error e => rw [hd] at h; simp at h
  | ok s₂ =>
    rw [hd] at h
    simp only [Except.ok.injEq] at h
    subst h
    have hcw : s₂.topic_msg_counts = s.topic_msg_counts ∧
        ∃ app : List (String × Int × String),
          s₂.imgWrites = s.imgWrites ++ app ∧ ∀ w ∈ app, w.1 = m.topic := by
      unfold dispatchMsg at hd
      cases hct : (schema.map (fun ti => ti.rosbag_topic)).contains m.topic with
      | false =>
        simp only [hct, Bool.false_eq_true, if_false] at hd
        cases hd
        exact ⟨rfl, [], by simp, by simp⟩
      | true =>
        simp only [hct, if_true] at hd
        cases hfind : findTopicConfig schema m.topic with
        | none => rw [hfind] at hd; simp at hd
        | some tc =>
          rw [hfind] at hd
          simp only at hd
          cases hk : shouldKeep ((List.lookup m.topic s.topic_msg_counts).getD 0)
              tc.start_idx tc.end_idx tc.throttle_rate with
          | false =>
            simp only [hk, Bool.false_eq_true, if_false] at hd
            cases hd
            exact ⟨rfl, [], by simp, by simp⟩
          | true =>
            simp only [hk, if_true] at hd
            cases hcsvb : (tc.output_type == "csv") with
            | true =>
              simp only [hcsvb, if_true] at hd
              unfold handleCsv at hd
              obtain ⟨_, _, e3, e4, _, _, _, _, _⟩ :=
                writeCsvRow_frame H tc m (createCsvSink H tc od bn m s) s₂ hd
              obtain ⟨_, g2, g3, _⟩ := createCsvSink_frame H tc od bn m s
              exact ⟨by rw [e3, g2], [], by simp [e4, g3], by simp⟩
            | false =>
              simp only [hcsvb, Bool.false_eq_true, if_false] at hd
              cases himgb : (tc.output_type == "dir_of_imgs") with
              | true =>
                simp only [himgb, if_true] at hd
                unfold handleImg at hd
                have hsh := writeImg_shape H tc od bn m (createImgSink tc od bn m s) s₂ hd
                obtain ⟨_, g2, g3, _, _, _, _, _⟩ := createImgSink_frame tc od bn m s
                subst hsh
                refine ⟨g2, [(m.topic, (List.lookup m.topic
                  (createImgSink tc od bn m s).topic_msg_counts).getD 0,
                  od ++ "/" ++ bn ++ "/" ++ tc.output_dir ++ "/"
                    ++ toString ((List.lookup m.topic
                      (createImgSink tc od bn m s).topic_msg_counts).getD 0) ++ ".png")],
                  by simp [g3], by simp⟩
              | false =>
                simp only [himgb, Bool.false_eq_true, if_false] at hd
                cases hd
                exact ⟨rfl, [], by simp, by simp⟩
    obtain ⟨hc, app, ha, hf⟩ := hcw
    refine ⟨by simp [bumpCount, hc], app, by simp [bumpCount, ha], hf⟩

end ExtractBag

namespace ExtractBag

theorem processMessage_img_step (H : Handlers) (schema : List TopicConfig)
    (od bn : String) (s : ExtractState) (m : Msg) (s₁ : ExtractState) (tc : TopicConfig)
    (k : Int)
    (hfind : findTopicConfig schema m.topic = some tc)
    (htype : tc.output_type = "dir_of_imgs")
    (hcount : List.lookup m.topic s.topic_msg_counts = some k)
    (h : processMessage H schema od bn s m = Except.ok s₁) :
    List.lookup m.topic s₁.topic_msg_counts = some (k + 1) ∧
    s₁.imgWrites = s.imgWrites ++
      (if shouldKeep k tc.start_idx tc.end_idx tc.throttle_rate then
        [(m.topic, k, od ++ "/" ++ bn ++ "/" ++ tc.output_dir ++ "/"
          ++ toString k ++ ".png")]
      else []) := by
  have hct := contains_topic_of_find schema m.topic tc hfind
  have hcsvb : (tc.output_type == "csv") = false := by simp [htype]
  have himgb : (tc.output_type == "dir_of_imgs") = true := by simp [htype]
  unfold processMessage at h
  cases hd : dispatchMsg H schema od bn s m with
  | error e => rw [hd] at h; simp at h
  | ok s₂ =>
    rw [hd] at h
    simp only [Except.ok.injEq] at h
    subst h
    unfold dispatchMsg at hd
    rw [hct] at hd
    simp only [if_true, hfind] at hd
    rw [hcount] at hd
    simp only [Option.getD_some] at hd
    cases hk : shouldKeep k tc.start_idx tc.end_idx tc.throttle_rate with
    | false =>
      simp only [hk, Bool.false_eq_true, if_false] at hd
      cases hd
      constructor
      · simp only [bumpCount, hcount, Option.getD_some]
        exact lookup_updAssoc_self s.topic_msg_counts m.topic (k + 1)
      · simp [bumpCount]
    | true =>
      simp only [hk, if_true, hcsvb, Bool.false_eq_true, if_false, himgb] at hd
      unfold handleImg at hd
      have hsh := writeImg_shape H tc od bn m (createImgSink tc od bn m s) s₂ hd
      obtain ⟨_, g2, g3, _, _, _, _, _⟩ := createImgSink_frame tc od bn m s
      subst hsh
      constructor
      · simp only [bumpCount, g2, hcount, Option.getD_some]
        exact lookup_updAssoc_self s.topic_msg_counts m.topic (k + 1)
      · simp [bumpCount, g2, g3, hcount]

theorem acceptedIdxs_succ (tc : TopicConfig) (k : Nat) :
    acceptedIdxs tc (k + 1) = acceptedIdxs tc k ++
      (if shouldKeep (k : Int) tc.start_idx tc.end_idx tc.throttle_rate then
        [((k : Int))] else []) := by
  unfold acceptedIdxs
  rw [List.range_succ]
  cases hk : shouldKeep (k : Int) tc.start_idx tc.end_idx tc.throttle_rate <;>
    simp [hk]

theorem lookup_const_zero (l : List String) (t : String) (h : t ∈ l) :
    List.lookup t (l.map (fun x => (x, (0 : Int)))) = some 0 := by
  induction l with
  | nil => simp at h
  | cons a rest ih =>
    by_cases hat : t = a
    · subst hat
      simp [List.lookup]
    · have hb : (t == a) = false := by simp [hat]
      have hmem : t ∈ rest := by
        cases h with
        | head => exact absurd rfl hat
        | tail _ hm => exact hm
      simp [List.lookup, hb, ih hmem]

theorem close_foldl_frame (l : List (String × CsvSink)) :
    ∀ st : ExtractState,
      ((List.foldl
        (fun st kv =>
          { st with
            openHandles := st.openHandles.erase kv.1,
            closeEvents := st.closeEvents ++ [kv.1] }) st l).topic_msg_counts
        = st.topic_msg_counts ∧
      (List.foldl
        (fun st kv =>
          { st with
            openHandles := st.openHandles.erase kv.1,
            closeEvents := st.closeEvents ++ [kv.1] }) st l).imgWrites = st.imgWrites ∧
      (List.foldl
        (fun st kv =>
          { st with
            openHandles := st.openHandles.erase kv.1,
            closeEvents := st.closeEvents ++ [kv.1] }) st l).csvFs = st.csvFs ∧
      (List.foldl
        (fun st kv =>
          { st with
            openHandles := st.openHandles.erase kv.1,
            closeEvents := st.closeEvents ++ [kv.1] }) st l).csv_writers
        = st.csv_writers ∧
      (List.foldl
        (fun st kv =>
          { st with
            openHandles := st.openHandles.erase kv.1,
            closeEvents := st.closeEvents ++ [kv.1] }) st l).headerWrites
        = st.headerWrites ∧
      (List.foldl
        (fun st kv =>
          { st with
            openHandles := st.openHandles.erase kv.1,
            closeEvents := st.closeEvents ++ [kv.1] }) st l).mkdirEvents
        = st.mkdirEvents) := by
  induction l with
  | nil => intro st; exact ⟨rfl, rfl, rfl, rfl, rfl, rfl⟩
  | cons kv rest ih =>
    intro st
    simp only [List.foldl_cons]
    exact ih _

theorem closeAll_frame (s : ExtractState) :
    (closeAll s).topic_msg_counts = s.topic_msg_counts ∧
    (closeAll s).imgWrites = s.imgWrites ∧
    (closeAll s).csvFs = s.csvFs ∧
    (closeAll s).csv_writers = s.csv_writers ∧
    (closeAll s).headerWrites = s.headerWrites ∧
    (closeAll s).mkdirEvents = s.mkdirEvents := by
  unfold closeAll
  exact close_foldl_frame s.csv_writers s

end ExtractBag

namespace ExtractBag

theorem filter_eq_nil_of_false {α : Type} (p : α → Bool) (l : List α)
    (h : ∀ a ∈ l, p a = false) : l.filter p = [] := by
  induction l with
  | nil => rfl
  | cons a rest ih =>
    simp only [List.filter_cons, h a (by simp)]
    exact ih (fun b hb => h b (by simp [hb]))

theorem runMessages_img_trace (H : Handlers) (schema : List TopicConfig)
    (od bn : String) (t : String) (tc : TopicConfig)
    (hfind : findTopicConfig schema t = some tc)
    (htype : tc.output_type = "dir_of_imgs") :
    ∀ (msgs : List Msg) (s : ExtractState) (k : Nat),
      (runMessages H schema od bn msgs s).2 = none →
      List.lookup t s.topic_msg_counts = some ((k : Int)) →
      ((s.imgWrites.filter (fun w => w.1 == t)).map (fun w => w.2)) =
        (acceptedIdxs tc k).map (fun i =>
          (i, od ++ "/" ++ bn ++ "/" ++ tc.output_dir ++ "/" ++ toString i ++ ".png")) →
      (List.lookup t (runMessages H schema od bn msgs s).1.topic_msg_counts
          = some (((k + (msgs.filter (fun x => x.topic == t)).length : Nat) : Int))) ∧
      (((runMessages H schema od bn msgs s).1.imgWrites.filter
          (fun w => w.1 == t)).map (fun w => w.2)) =
        (acceptedIdxs tc (k + (msgs.filter (fun x => x.topic == t)).length)).map
          (fun i => (i, od ++ "/" ++ bn ++ "/" ++ tc.output_dir ++ "/"
            ++ toString i ++ ".png")) := by
  intro msgs
  induction msgs with
  | nil =>
    intro s k _ hcount htrace
    simpa [runMessages] using ⟨hcount, htrace⟩
  | cons m rest ih =>
    intro s k hok hcount htrace
    cases hpm : processMessage H schema od bn s m with
    | error e =>
      rw [show runMessages H schema od bn (m :: rest) s = (s, some e) by
        simp [runMessages, hpm]] at hok
      simp at hok
    | ok s₁ =>
      have hrw : runMessages H schema od bn (m :: rest) s
          = runMessages H schema od bn rest s₁ := by
        simp [runMessages, hpm]
      rw [hrw] at hok ⊢
      by_cases hmt : m.topic = t
      · have hfind' : findTopicConfig schema m.topic = some tc := by
          rw [hmt]; exact hfind
        have hcount' : List.lookup m.topic s.topic_msg_counts = some ((k : Int)) := by
          rw [hmt]; exact hcount
        obtain ⟨hc1, hi1⟩ := processMessage_img_step H schema od bn s m s₁ tc (k : Int)
          hfind' htype hcount' hpm
        have hcast : ((k + 1 : Nat) : Int) = (k : Int) + 1 := by push_cast; ring
        have hc1' : List.lookup t s₁.topic_msg_counts = some (((k + 1 : Nat) : Int)) := by
          rw [← hmt, hcast]; exact hc1
        have htrace' : ((s₁.imgWrites.filter (fun w => w.1 == t)).map (fun w => w.2)) =
            (acceptedIdxs tc (k + 1)).map (fun i =>
              (i, od ++ "/" ++ bn ++ "/" ++ tc.output_dir ++ "/"
                ++ toString i ++ ".png")) := by
          rw [hi1, List.filter_append, List.map_append, htrace, acceptedIdxs_succ,
            List.map_append]
          congr 1
          cases hk : shouldKeep (k : Int) tc.start_idx tc.end_idx tc.throttle_rate with
          | false => simp [hk]
          | true => simp [hk, hmt]
        obtain ⟨ha, hb⟩ := ih s₁ (k + 1) hok hc1' htrace'
        have hn : (k + 1) + (rest.filter (fun x => x.topic == t)).length
            = k + ((m :: rest).filter (fun x => x.topic == t)).length := by
          have hmb : (m.topic == t) = true := by simp [hmt]
          simp only [List.filter_cons, hmb, if_true, List.length_cons]
          omega
        constructor
        · rw [ha, hn]
        · rw [hb, hn]
      · obtain ⟨hc1, app, happ, hfst⟩ :=
          processMessage_step_shape H schema od bn s m s₁ hpm
        have hne : t ≠ m.topic := fun e => hmt e.symm
        have hc1' : List.lookup t s₁.topic_msg_counts = some ((k : Int)) := by
          rw [hc1, lookup_updAssoc_ne _ _ _ _ hne]
          exact hcount
        have happf : app.filter (fun w => w.1 == t) = [] :=
          filter_eq_nil_of_false _ app (fun w hw => by rw [hfst w hw]; simp [hmt])
        have htrace' : ((s₁.imgWrites.filter (fun w => w.1 == t)).map (fun w => w.2)) =
            (acceptedIdxs tc k).map (fun i =>
              (i, od ++ "/" ++ bn ++ "/" ++ tc.output_dir ++ "/"
                ++ toString i ++ ".png")) := by
          rw [happ, List.filter_append, happf, List.append_nil]
          exact htrace
        obtain ⟨ha, hb⟩ := ih s₁ k hok hc1' htrace'
        have hn : ((m :: rest).filter (fun x => x.topic == t)).length
            = (rest.filter (fun x => x.topic == t)).length := by
          have hmb : (m.topic == t) = false := by simp [hmt]
          simp [List.filter_cons, hmb]
        constructor
        · rw [hn]; exact ha
        · rw [hn]; exact hb

end ExtractBag

namespace ExtractBag

theorem runMessages_counts (H : Handlers) (schema : List TopicConfig)
    (od bn : String) (t : String) :
    ∀ (msgs : List Msg) (s : ExtractState) (k : Nat),
      (runMessages H schema od bn msgs s).2 = none →
      List.lookup t s.topic_msg_counts = some ((k : Int)) →
      List.lookup t (runMessages H schema od bn msgs s).1.topic_msg_counts
        = some (((k + (msgs.filter (fun x => x.topic == t)).length : Nat) : Int)) := by
  intro msgs
  induction msgs with
  | nil =>
    intro s k _ hcount
    simpa [runMessages] using hcount
  | cons m rest ih =>
    intro s k hok hcount
    cases hpm : processMessage H schema od bn s m with
    | error e =>
      rw [show runMessages H schema od bn (m :: rest) s = (s, some e) by
        simp [runMessages, hpm]] at hok
      simp at hok
    | ok s₁ =>
      have hrw : runMessages H schema od bn (m :: rest) s
          = runMessages H schema od bn rest s₁ := by
        simp [runMessages, hpm]
      rw [hrw] at hok ⊢
      obtain ⟨hc1, _, _, _⟩ := processMessage_step_shape H schema od bn s m s₁ hpm
      by_cases hmt : m.topic = t
      · have hc1' : List.lookup t s₁.topic_msg_counts
            = some (((k + 1 : Nat) : Int)) := by
          rw [hc1, ← hmt, lookup_updAssoc_self]
          rw [hmt, hcount]
          simp only [Option.getD_some, Option.some.injEq]
          push_cast
          ring
        have hn : (k + 1) + (rest.filter (fun x => x.topic == t)).length
            = k + ((m :: rest).filter (fun x => x.topic == t)).length := by
          have hmb : (m.topic == t) = true := by simp [hmt]
          simp only [List.filter_cons, hmb, if_true, List.length_cons]
          omega
        rw [← hn]
        exact ih s₁ (k + 1) hok hc1'
      · have hne : t ≠ m.topic := fun e => hmt e.symm
        have hc1' : List.lookup t s₁.topic_msg_counts = some ((k : Int)) := by
          rw [hc1, lookup_updAssoc_ne _ _ _ _ hne]
          exact hcount
        have hn : ((m :: rest).filter (fun x => x.topic == t)).length
            = (rest.filter (fun x => x.topic == t)).length := by
          have hmb : (m.topic == t) = false := by simp [hmt]
          simp [List.filter_cons, hmb]
        rw [hn]
        exact ih s₁ k hok hc1'

/-! ### Claim C5: cursors count every message; image indices reproduce
the accepted cursor sequence -/

/-- C5: within one bag every configured topic's cursor starts at zero
and ends at the total number of messages seen on that topic, sampled or
not (one increment per message); and for a configured image topic the
images written are exactly the accepted cursor values in order, each
saved to the file named by the cursor value at accept time — so the
image file indices reproduce the exact, possibly non-contiguous,
accepted cursor sequence. -/
theorem cursor_and_image_trace (H : Handlers) (cfg : List TopicConfig)
    (path : String) (msgs : List Msg) (od : String)
    (fs₀ : List (String × List (List String))) (t : String) (tc : TopicConfig)
    (hfind : findTopicConfig cfg t = some tc)
    (htype : tc.output_type = "dir_of_imgs")
    (hok : (extract_single H cfg path msgs od fs₀).2 = none) :
    (∀ t' : String, t' ∈ cfg.map (fun ti => ti.rosbag_topic) →
      List.lookup t' (initState cfg fs₀).topic_msg_counts = some 0 ∧
      List.lookup t' (extract_single H cfg path msgs od fs₀).1.topic_msg_counts
        = some (((msgs.filter (fun x => x.topic == t')).length : Int))) ∧
    (((extract_single H cfg path msgs od fs₀).1.imgWrites.filter
        (fun w => w.1 == t)).map (fun w => w.2)) =
      (acceptedIdxs tc (msgs.filter (fun x => x.topic == t)).length).map
        (fun i => (i, od ++ "/" ++ bag_name_of path ++ "/" ++ tc.output_dir ++ "/"
          ++ toString i ++ ".png")) := by
  have hok' : (runMessages H cfg od (bag_name_of path) msgs
      (initState cfg fs₀)).2 = none := hok
  constructor
  · intro t' hmem
    have hinit : List.lookup t' (initState cfg fs₀).topic_msg_counts = some 0 := by
      simpa [initState] using
        lookup_const_zero (cfg.map (fun ti => ti.rosbag_topic)) t' hmem
    have hinit' : List.lookup t' (initState cfg fs₀).topic_msg_counts
        = some (((0 : Nat) : Int)) := by simpa using hinit
    have hc := runMessages_counts H cfg od (bag_name_of path) t' msgs
      (initState cfg fs₀) 0 hok' hinit'
    obtain ⟨f1, _, _, _, _, _⟩ := closeAll_frame
      (runMessages H cfg od (bag_name_of path) msgs (initState cfg fs₀)).1
    refine ⟨hinit, ?_⟩
    show List.lookup t' (closeAll _).topic_msg_counts = _
    rw [f1, hc]
    simp
  · obtain ⟨hmem', heq'⟩ := findTopicConfig_mem cfg t tc hfind
    have hmem : t ∈ cfg.map (fun ti => ti.rosbag_topic) := by
      rw [← heq']
      exact List.mem_map_of_mem (fun ti => ti.rosbag_topic) hmem'
    have hinit : List.lookup t (initState cfg fs₀).topic_msg_counts = some 0 := by
      simpa [initState] using
        lookup_const_zero (cfg.map (fun ti => ti.rosbag_topic)) t hmem
    have hinit' : List.lookup t (initState cfg fs₀).topic_msg_counts
        = some (((0 : Nat) : Int)) := by simpa using hinit
    have htrace₀ : (((initState cfg fs₀).imgWrites.filter
        (fun w => w.1 == t)).map (fun w => w.2)) =
        (acceptedIdxs tc 0).map (fun i =>
          (i, od ++ "/" ++ bag_name_of path ++ "/" ++ tc.output_dir ++ "/"
            ++ toString i ++ ".png")) := by
      simp [initState, acceptedIdxs]
    obtain ⟨_, hb⟩ := runMessages_img_trace H cfg od (bag_name_of path) t tc hfind
      htype msgs (initState cfg fs₀) 0 hok' hinit' htrace₀
    obtain ⟨_, f2, _, _, _, _⟩ := closeAll_frame
      (runMessages H cfg od (bag_name_of path) msgs (initState cfg fs₀)).1
    show ((closeAll _).imgWrites.filter (fun w => w.1 == t)).map (fun w => w.2) = _
    rw [f2, hb]
    simp

/-- C5 witness: the throttled-image scenario — six messages on the
image topic configured with start 1, end 5, stride 1 give a cursor that
starts at zero and ends at six, and images named 1, 2, 3 and 4. -/
theorem cursor_and_image_trace_witness :
    (List.lookup "/i" (initState
      [{ rosbag_topic := "/i", output_dir := "imgs", output_type := "dir_of_imgs",
         start_idx := 1, end_idx := 5, throttle_rate := 1, extra_options := none }]
      []).topic_msg_counts = some 0 ∧
    List.lookup "/i" (extract_single goodHandlers
      [{ rosbag_topic := "/i", output_dir := "imgs", output_type := "dir_of_imgs",
         start_idx := 1, end_idx := 5, throttle_rate := 1, extra_options := none }]
      "d/b.bag"
      [⟨"/i", "I", 0⟩, ⟨"/i", "I", 1⟩, ⟨"/i", "I", 2⟩, ⟨"/i", "I", 3⟩,
       ⟨"/i", "I", 4⟩, ⟨"/i", "I", 5⟩] "out" []).1.topic_msg_counts
      = some ((([⟨"/i", "I", 0⟩, ⟨"/i", "I", 1⟩, ⟨"/i", "I", 2⟩, ⟨"/i", "I", 3⟩,
          ⟨"/i", "I", 4⟩, ⟨"/i", "I", 5⟩] : List Msg).filter
            (fun x => x.topic == "/i")).length : Int)) ∧
    (((extract_single goodHandlers
      [{ rosbag_topic := "/i", output_dir := "imgs", output_type := "dir_of_imgs",
         start_idx := 1, end_idx := 5, throttle_rate := 1, extra_options := none }]
      "d/b.bag"
      [⟨"/i", "I", 0⟩, ⟨"/i", "I", 1⟩, ⟨"/i", "I", 2⟩, ⟨"/i", "I", 3⟩,
       ⟨"/i", "I", 4⟩, ⟨"/i", "I", 5⟩] "out" []).1.imgWrites.filter
        (fun w => w.1 == "/i")).map (fun w => w.2)) =
      (acceptedIdxs
        { rosbag_topic := "/i", output_dir := "imgs", output_type := "dir_of_imgs",
          start_idx := 1, end_idx := 5, throttle_rate := 1, extra_options := none }
        (([⟨"/i", "I", 0⟩, ⟨"/i", "I", 1⟩, ⟨"/i", "I", 2⟩, ⟨"/i", "I", 3⟩,
          ⟨"/i", "I", 4⟩, ⟨"/i", "I", 5⟩] : List Msg).filter
            (fun x => x.topic == "/i")).length).map
        (fun i => (i, "out" ++ "/" ++ bag_name_of "d/b.bag" ++ "/" ++ "imgs" ++ "/"
          ++ toString i ++ ".png")) :=
  ⟨(cursor_and_image_trace goodHandlers
    [{ rosbag_topic := "/i", output_dir := "imgs", output_type := "dir_of_imgs",
       start_idx := 1, end_idx := 5, throttle_rate := 1, extra_options := none }]
    "d/b.bag"
    [⟨"/i", "I", 0⟩, ⟨"/i", "I", 1⟩, ⟨"/i", "I", 2⟩, ⟨"/i", "I", 3⟩,
     ⟨"/i", "I", 4⟩, ⟨"/i", "I", 5⟩] "out" [] "/i"
    { rosbag_topic := "/i", output_dir := "imgs", output_type := "dir_of_imgs",
      start_idx := 1, end_idx := 5, throttle_rate := 1, extra_options := none }
    (by decide) rfl (by rfl)).1 "/i" (by decide),
   (cursor_and_image_trace goodHandlers
    [{ rosbag_topic := "/i", output_dir := "imgs", output_type := "dir_of_imgs",
       start_idx := 1, end_idx := 5, throttle_rate := 1, extra_options := none }]
    "d/b.bag"
    [⟨"/i", "I", 0⟩, ⟨"/i", "I", 1⟩, ⟨"/i", "I", 2⟩, ⟨"/i", "I", 3⟩,
     ⟨"/i", "I", 4⟩, ⟨"/i", "I", 5⟩] "out" [] "/i"
    { rosbag_topic := "/i", output_dir := "imgs", output_type := "dir_of_imgs",
      start_idx := 1, end_idx := 5, throttle_rate := 1, extra_options := none }
    (by decide) rfl (by rfl)).2⟩

end ExtractBag

namespace ExtractBag

/-! ### Claim C8: bag selection and processing order of the batch driver -/

theorem extractAllGo_names (H : Handlers) (cfg : List TopicConfig)
    (dir : String) (contents : String → List Msg) (od : String) :
    ∀ (l : List FileEntry) (fs₀ : List (String × List (List String))),
      (extractAllGo H cfg dir contents od l fs₀).2 = none →
      (extractAllGo H cfg dir contents od l fs₀).1.map Prod.fst
        = l.map (fun f => dir ++ "/" ++ f.name) := by
  intro l
  induction l with
  | nil => intro fs₀ _; rfl
  | cons f rest ih =>
    intro fs₀ hok
    simp only [extractAllGo] at hok ⊢
    cases he : (extract_single H cfg (dir ++ "/" ++ f.name)
        (contents (dir ++ "/" ++ f.name)) od fs₀).2 with
    | some e =>
      simp only [he] at hok
      simp at hok
    | none =>
      simp only [he] at hok ⊢
      simp only [List.map_cons, List.cons.injEq, true_and]
      exact ih _ hok

/-- C8: the batch driver selects exactly the entries matching the
`*.bag` glob that are not dot-prefixed, orders them ascending by file
size, and (when no bag fails) invokes the extraction pipeline exactly
once per selected bag, sequentially in that order. -/
theorem batch_driver_selection_order (H : Handlers) (cfg : List TopicConfig)
    (dir od : String) (files : List FileEntry) (contents : String → List Msg)
    (hok : (extract_all H cfg dir files contents od).2 = none) :
    (list_o_bags files).Perm
      (files.filter (fun f => hasBagSuffix f.name && !(isDotPrefixed f.name))) ∧
    (∀ f, f ∈ list_o_bags files ↔
      (f ∈ files ∧ hasBagSuffix f.name = true ∧ isDotPrefixed f.name = false)) ∧
    List.Sorted (fun a b : FileEntry => a.size ≤ b.size) (list_o_bags files) ∧
    (extract_all H cfg dir files contents od).1.map Prod.fst
      = (list_o_bags files).map (fun f => dir ++ "/" ++ f.name) := by
  refine ⟨?_, ?_, ?_, ?_⟩
  · exact List.perm_insertionSort _ _
  · intro f
    unfold list_o_bags
    rw [(List.perm_insertionSort _ _).mem_iff]
    simp [List.mem_filter, Bool.not_eq_true', and_assoc]
  · exact List.sorted_insertionSort _ _
  · exact extractAllGo_names H cfg dir contents od (list_o_bags files) [] hok

/-- C8 witness: sizes 300, 100, 200 (with a hidden bag and a non-bag
file present) are processed in the order 100, 200, 300. -/
theorem batch_driver_selection_order_witness :
    (extract_all goodHandlers oneCsvTopic "d"
      [⟨"c.bag", 300⟩, ⟨"a.bag", 100⟩, ⟨".h.bag", 10⟩, ⟨"x.txt", 5⟩, ⟨"b.bag", 200⟩]
      emptyContents "out").1.map Prod.fst
      = ["d/a.bag", "d/b.bag", "d/c.bag"] :=
  ((batch_driver_selection_order goodHandlers oneCsvTopic "d" "out"
    [⟨"c.bag", 300⟩, ⟨"a.bag", 100⟩, ⟨".h.bag", 10⟩, ⟨"x.txt", 5⟩, ⟨"b.bag", 200⟩]
    emptyContents (by rfl)).2.2.2).trans (by rfl)

/-! ### Claim C3: a failing bag halts the whole batch -/

/-- C3 counterexample: with three bags ordered b1, b2, b3 and an
extractor that raises on the only message of b2, the batch driver
processes b1 and b2 only — b3 is never processed — and the exception
propagates out of `extract_all` instead of being recorded as a per-bag
result. -/
theorem batch_failure_halts_counterexample :
    (extract_all failHandlers oneCsvTopic "d"
      [⟨"b1.bag", 1⟩, ⟨"b2.bag", 2⟩, ⟨"b3.bag", 3⟩]
      oneBadBagContents "out").1.map Prod.fst = ["d/b1.bag", "d/b2.bag"] ∧
    (extract_all failHandlers oneCsvTopic "d"
      [⟨"b1.bag", 1⟩, ⟨"b2.bag", 2⟩, ⟨"b3.bag", 3⟩]
      oneBadBagContents "out").2 = some "boom" := by
  constructor <;> rfl

/-- C3 amended: a failure while processing one bag aborts that bag's
remaining messages and also halts the entire batch: when the first
selected bag fails, no subsequent bag is processed, and the failure
propagates as the batch result rather than being surfaced as a per-bag
result. -/
theorem batch_failure_halts (H : Handlers) (cfg : List TopicConfig)
    (dir od : String) (files : List FileEntry) (contents : String → List Msg)
    (b : FileEntry) (rest : List FileEntry) (e : String)
    (hplan : list_o_bags files = b :: rest)
    (hfail : (extract_single H cfg (dir ++ "/" ++ b.name)
      (contents (dir ++ "/" ++ b.name)) od []).2 = some e) :
    (extract_all H cfg dir files contents od).1.map Prod.fst
      = [dir ++ "/" ++ b.name] ∧
    (extract_all H cfg dir files contents od).2 = some e := by
  unfold extract_all
  rw [hplan]
  simp only [extractAllGo, hfail]
  exact ⟨by rfl, by trivial⟩

/-- C3 amended witness: a single failing bag yields a one-element
processed list and the propagated error. -/
theorem batch_failure_halts_witness :
    (extract_all failHandlers oneCsvTopic "d" [⟨"b2.bag", 2⟩]
      oneBadBagContents "out").1.map Prod.fst = ["d" ++ "/" ++ "b2.bag"] ∧
    (extract_all failHandlers oneCsvTopic "d" [⟨"b2.bag", 2⟩]
      oneBadBagContents "out").2 = some "boom" :=
  batch_failure_halts failHandlers oneCsvTopic "d" "out" [⟨"b2.bag", 2⟩]
    oneBadBagContents ⟨"b2.bag", 2⟩ [] "boom" (by rfl) (by rfl)

end ExtractBag

namespace ExtractBag

/-! ### Resource shape lemmas for the refined failure model -/

theorem leakShape_of_resourceInvF (s : ExtractState) (h : ResourceInvF s) :
    LeakShape s := by
  obtain ⟨h1, h2, h3, h4⟩ := h
  refine ⟨h1, h2, by rw [h3]; exact h4, [], ?_, by simp⟩
  rw [List.append_nil]
  exact h3

theorem resourceInvF_congr (s s₁ : ExtractState)
    (hcw : s₁.csv_writers = s.csv_writers) (hop : s₁.opened = s.opened)
    (hoh : s₁.openHandles = s.openHandles) (hce : s₁.closeEvents = s.closeEvents)
    (h : ResourceInvF s) : ResourceInvF s₁ := by
  obtain ⟨h1, h2, h3, h4⟩ := h
  refine ⟨?_, ?_, ?_, ?_⟩
  · rw [hce]; exact h1
  · rw [hoh, hop]; exact h2
  · rw [hop, hcw]; exact h3
  · rw [hcw]; exact h4

theorem writeCsvRowF_frame (H : HandlersF) (tc : TopicConfig) (m : Msg)
    (s : ExtractState) :
    (writeCsvRowF H tc m s).1.csv_writers = s.csv_writers ∧
    (writeCsvRowF H tc m s).1.opened = s.opened ∧
    (writeCsvRowF H tc m s).1.openHandles = s.openHandles ∧
    (writeCsvRowF H tc m s).1.closeEvents = s.closeEvents := by
  cases hl : List.lookup m.topic s.csv_writers with
  | none => simp [writeCsvRowF, hl]
  | some sink =>
    cases hp : H.process_msg_csv m.msgType m m.stamp tc.extra_options with
    | error e => simp [writeCsvRowF, hl, hp]
    | ok processed =>
      cases hr : dictWriterRow sink.columns processed with
      | error e => simp [writeCsvRowF, hl, hp, hr]
      | ok cells => simp [writeCsvRowF, hl, hp, hr]

theorem writeImgF_frame (H : HandlersF) (tc : TopicConfig) (od bn : String)
    (m : Msg) (s : ExtractState) :
    (writeImgF H tc od bn m s).1.csv_writers = s.csv_writers ∧
    (writeImgF H tc od bn m s).1.opened = s.opened ∧
    (writeImgF H tc od bn m s).1.openHandles = s.openHandles ∧
    (writeImgF H tc od bn m s).1.closeEvents = s.closeEvents := by
  cases hp : H.process_msg_img m.msgType m m.stamp tc.extra_options with
  | error e => simp [writeImgF, hp]
  | ok p => simp [writeImgF, hp]

theorem createCsvSinkF_shape (H : HandlersF) (env : FsEnv) (tc : TopicConfig)
    (od bn : String) (m : Msg) (s : ExtractState) (hInv : ResourceInvF s) :
    (∀ s₁, createCsvSinkF H env tc od bn m s = (s₁, none) → ResourceInvF s₁) ∧
    (∀ s₁ e, createCsvSinkF H env tc od bn m s = (s₁, some e) → LeakShape s₁) := by
  obtain ⟨h1, h2, h3, h4⟩ := hInv
  unfold createCsvSinkF
  cases hn : (List.lookup m.topic s.csv_writers).isNone with
  | false =>
    simp only [hn, Bool.false_eq_true, if_false]
    constructor
    · intro s₁ he
      rw [Prod.mk.injEq] at he
      rw [← he.1]
      exact ⟨h1, h2, h3, h4⟩
    · intro s₁ e he
      rw [Prod.mk.injEq] at he
      exact absurd he.2 (by simp)
  | true =>
    have hnone : List.lookup m.topic s.csv_writers = none := by
      cases hl : List.lookup m.topic s.csv_writers with
      | none => rfl
      | some v => rw [hl] at hn; simp at hn
    have hmem : m.topic ∉ s.csv_writers.map Prod.fst :=
      (lookup_none_iff_not_mem_keys s.csv_writers m.topic).mp hnone
    simp only [hn, if_true]
    cases hg : H.get_msg_cols m.msgType with
    | error e₀ =>
      simp only [hg]
      constructor
      · intro s₁ he
        rw [Prod.mk.injEq] at he
        exact absurd he.2 (by simp)
      · intro s₁ e he
        rw [Prod.mk.injEq] at he
        rw [← he.1]
        refine ⟨by simpa using h1, by simp [h2], ?_, [m.topic], by simp [h3], by simp⟩
        simp only [ExtractState.opened]
        rw [h3]
        rw [List.nodup_append]
        refine ⟨h4, by simp, ?_⟩
        intro a ha hb
        simp at hb
        subst hb
        exact hmem ha
    | ok cols =>
      cases hw : env.writeheader_raises (od ++ "/" ++ bn ++ "/" ++ tc.output_dir ++ ".csv") with
      | some e₀ =>
        simp only [hg, hw]
        constructor
        · intro s₁ he
          rw [Prod.mk.injEq] at he
          exact absurd he.2 (by simp)
        · intro s₁ e he
          rw [Prod.mk.injEq] at he
          rw [← he.1]
          refine ⟨by simpa using h1, by simp [h2], ?_, [m.topic], by simp [h3], by simp⟩
          simp only [ExtractState.opened]
          rw [h3]
          rw [List.nodup_append]
          refine ⟨h4, by simp, ?_⟩
          intro a ha hb
          simp at hb
          subst hb
          exact hmem ha
      | none =>
        simp only [hg, hw]
        constructor
        · intro s₁ he
          rw [Prod.mk.injEq] at he
          rw [← he.1]
          refine ⟨by simpa using h1, by simp [h2], by simp [h3], ?_⟩
          simp only [List.map_append]
          rw [List.nodup_append]
          refine ⟨h4, by simp, ?_⟩
          intro a ha hb
          simp at hb
          subst hb
          exact hmem ha
        · intro s₁ e he
          rw [Prod.mk.injEq] at he
          exact absurd he.2 (by simp)

end ExtractBag

namespace ExtractBag

theorem dispatchMsgF_shape (H : HandlersF) (env : FsEnv) (schema : List TopicConfig)
    (od bn : String) (s : ExtractState) (m : Msg) (hInv : ResourceInvF s) :
    (∀ s₁, dispatchMsgF H env schema od bn s m = (s₁, none) → ResourceInvF s₁) ∧
    (∀ s₁ e, dispatchMsgF H env schema od bn s m = (s₁, some e) → LeakShape s₁) := by
  unfold dispatchMsgF
  cases hct : (schema.map (fun ti => ti.rosbag_topic)).contains m.topic with
  | false =>
    simp only [hct, Bool.false_eq_true, if_false]
    constructor
    · intro s₁ he
      rw [Prod.mk.injEq] at he
      rw [← he.1]
      exact hInv
    · intro s₁ e he
      rw [Prod.mk.injEq] at he
      exact absurd he.2 (by simp)
  | true =>
    simp only [hct, if_true]
    cases hfind : findTopicConfig schema m.topic with
    | none =>
      simp only [hfind]
      constructor
      · intro s₁ he
        rw [Prod.mk.injEq] at he
        exact absurd he.2 (by simp)
      · intro s₁ e he
        rw [Prod.mk.injEq] at he
        rw [← he.1]
        exact leakShape_of_resourceInvF s hInv
    | some tc =>
      simp only [hfind]
      cases hk : shouldKeep ((List.lookup m.topic s.topic_msg_counts).getD 0)
          tc.start_idx tc.end_idx tc.throttle_rate with
      | false =>
        simp only [hk, Bool.false_eq_true, if_false]
        constructor
        · intro s₁ he
          rw [Prod.mk.injEq] at he
          rw [← he.1]
          exact hInv
        · intro s₁ e he
          rw [Prod.mk.injEq] at he
          exact absurd he.2 (by simp)
      | true =>
        simp only [hk, if_true]
        cases hcsvb : (tc.output_type == "csv") with
        | true =>
          simp only [hcsvb, if_true]
          obtain ⟨hcA, hcB⟩ := createCsvSinkF_shape H env tc od bn m s hInv
          constructor
          · intro s₁ he
            unfold handleCsvF at he
            cases hc2 : (createCsvSinkF H env tc od bn m s).2 with
            | some e₂ =>
              simp only [hc2] at he
              rw [Prod.mk.injEq] at he
              exact absurd he.2 (by simp)
            | none =>
              simp only [hc2] at he
              have hInv₂ := hcA (createCsvSinkF H env tc od bn m s).1
                (by rw [← hc2])
              obtain ⟨f1, f2, f3, f4⟩ :=
                writeCsvRowF_frame H tc m (createCsvSinkF H env tc od bn m s).1
              have h1' : (writeCsvRowF H tc m (createCsvSinkF H env tc od bn m s).1).1 = s₁ := by
                rw [he]
              rw [h1'] at f1 f2 f3 f4
              exact resourceInvF_congr _ s₁ f1 f2 f3 f4 hInv₂
          · intro s₁ e he
            unfold handleCsvF at he
            cases hc2 : (createCsvSinkF H env tc od bn m s).2 with
            | some e₂ =>
              simp only [hc2] at he
              rw [Prod.mk.injEq] at he
              rw [← he.1]
              exact hcB (createCsvSinkF H env tc od bn m s).1 e₂
                (by rw [← hc2])
            | none =>
              simp only [hc2] at he
              have hInv₂ := hcA (createCsvSinkF H env tc od bn m s).1
                (by rw [← hc2])
              obtain ⟨f1, f2, f3, f4⟩ :=
                writeCsvRowF_frame H tc m (createCsvSinkF H env tc od bn m s).1
              have h1' : (writeCsvRowF H tc m (createCsvSinkF H env tc od bn m s).1).1 = s₁ := by
                rw [he]
              rw [h1'] at f1 f2 f3 f4
              exact leakShape_of_resourceInvF s₁
                (resourceInvF_congr _ s₁ f1 f2 f3 f4 hInv₂)
        | false =>
          simp only [hcsvb, Bool.false_eq_true, if_false]
          cases himgb : (tc.output_type == "dir_of_imgs") with
          | true =>
            simp only [himgb, if_true]
            obtain ⟨g1, _, _, _, g5, g6, g7, _⟩ := createImgSink_frame tc od bn m s
            have hInv' : ResourceInvF (createImgSink tc od bn m s) :=
              resourceInvF_congr s _ g1 g5 g6 g7 hInv
            constructor
            · intro s₁ he
              unfold handleImgF at he
              obtain ⟨f1, f2, f3, f4⟩ :=
                writeImgF_frame H tc od bn m (createImgSink tc od bn m s)
              have h1' : (writeImgF H tc od bn m (createImgSink tc od bn m s)).1 = s₁ := by
                rw [he]
              rw [h1'] at f1 f2 f3 f4
              exact resourceInvF_congr _ s₁ f1 f2 f3 f4 hInv'
            · intro s₁ e he
              unfold handleImgF at he
              obtain ⟨f1, f2, f3, f4⟩ :=
                writeImgF_frame H tc od bn m (createImgSink tc od bn m s)
              have h1' : (writeImgF H tc od bn m (createImgSink tc od bn m s)).1 = s₁ := by
                rw [he]
              rw [h1'] at f1 f2 f3 f4
              exact leakShape_of_resourceInvF s₁
                (resourceInvF_congr _ s₁ f1 f2 f3 f4 hInv')
          | false =>
            simp only [himgb, Bool.false_eq_true, if_false]
            constructor
            · intro s₁ he
              rw [Prod.mk.injEq] at he
              rw [← he.1]
              exact hInv
            · intro s₁ e he
              rw [Prod.mk.injEq] at he
              exact absurd he.2 (by simp)

theorem processMessageF_shape (H : HandlersF) (env : FsEnv) (schema : List TopicConfig)
    (od bn : String) (s : ExtractState) (m : Msg) (hInv : ResourceInvF s) :
    (∀ s₁, processMessageF H env schema od bn s m = (s₁, none) → ResourceInvF s₁) ∧
    (∀ s₁ e, processMessageF H env schema od bn s m = (s₁, some e) → LeakShape s₁) := by
  obtain ⟨hA, hB⟩ := dispatchMsgF_shape H env schema od bn s m hInv
  unfold processMessageF
  cases hd2 : (dispatchMsgF H env schema od bn s m).2 with
  | some e₀ =>
    simp only [hd2]
    constructor
    · intro s₁ he
      rw [Prod.mk.injEq] at he
      exact absurd he.2 (by simp)
    · intro s₁ e he
      rw [Prod.mk.injEq] at he
      rw [← he.1]
      exact hB (dispatchMsgF H env schema od bn s m).1 e₀
        (by rw [← hd2])
  | none =>
    simp only [hd2]
    have hInv₁ := hA (dispatchMsgF H env schema od bn s m).1
      (by rw [← hd2])
    constructor
    · intro s₁ he
      rw [Prod.mk.injEq] at he
      rw [← he.1]
      exact resourceInvF_congr _ _ rfl rfl rfl rfl hInv₁
    · intro s₁ e he
      rw [Prod.mk.injEq] at he
      exact absurd he.2 (by simp)

theorem runMessagesF_shape (H : HandlersF) (env : FsEnv) (schema : List TopicConfig)
    (od bn : String) :
    ∀ (msgs : List Msg) (s : ExtractState), ResourceInvF s →
      ((runMessagesF H env schema od bn msgs s).2 = none →
        ResourceInvF (runMessagesF H env schema od bn msgs s).1) ∧
      (∀ e, (runMessagesF H env schema od bn msgs s).2 = some e →
        LeakShape (runMessagesF H env schema od bn msgs s).1) := by
  intro msgs
  induction msgs with
  | nil =>
    intro s h
    constructor
    · intro _
      exact h
    · intro e he
      simp [runMessagesF] at he
  | cons m rest ih =>
    intro s h
    obtain ⟨pA, pB⟩ := processMessageF_shape H env schema od bn s m h
    cases hp2 : (processMessageF H env schema od bn s m).2 with
    | none =>
      have hrw : runMessagesF H env schema od bn (m :: rest) s
          = runMessagesF H env schema od bn rest
              (processMessageF H env schema od bn s m).1 := by
        simp only [runMessagesF, hp2]
      rw [hrw]
      exact ih _ (pA _ (by rw [← hp2]))
    | some e₀ =>
      have hrw : runMessagesF H env schema od bn (m :: rest) s
          = ((processMessageF H env schema od bn s m).1, some e₀) := by
        simp only [runMessagesF, hp2]
      rw [hrw]
      constructor
      · intro hn
        simp at hn
      · intro e he
        exact pB (processMessageF H env schema od bn s m).1 e₀
          (by rw [← hp2])

end ExtractBag

namespace ExtractBag

theorem closeListF_success (env : FsEnv) (hclose : ∀ t, env.close_raises t = none) :
    ∀ (l : List (String × CsvSink)) (st : ExtractState) (leak : List String),
      st.openHandles = l.map Prod.fst ++ leak →
      (closeListF env l st).2 = none ∧
      (closeListF env l st).1.openHandles = leak ∧
      (closeListF env l st).1.closeEvents = st.closeEvents ++ l.map Prod.fst ∧
      (closeListF env l st).1.opened = st.opened ∧
      (closeListF env l st).1.csv_writers = st.csv_writers := by
  intro l
  induction l with
  | nil =>
    intro st leak h
    exact ⟨rfl, by simpa using h, by simp [closeListF], rfl, rfl⟩
  | cons kv rest ih =>
    intro st leak h
    simp only [closeListF, hclose kv.1]
    have h₂ : ({ st with
        openHandles := st.openHandles.erase kv.1,
        closeEvents := st.closeEvents ++ [kv.1] } : ExtractState).openHandles
        = rest.map Prod.fst ++ leak := by
      simp only [List.map_cons] at h
      simp [h, List.erase_cons_head]
    obtain ⟨a, b, c, d, e⟩ := ih _ _ h₂
    refine ⟨a, b, ?_, d, e⟩
    rw [c]
    simp

theorem extract_singleF_eq (H : HandlersF) (env : FsEnv) (cfg : List TopicConfig)
    (path : String) (msgs : List Msg) (od : String)
    (fs₀ : List (String × List (List String))) :
    extract_singleF H env cfg path msgs od fs₀ =
      ((closeListF env
          (runMessagesF H env cfg od (bag_name_of path) msgs (initState cfg fs₀)).1.csv_writers
          (runMessagesF H env cfg od (bag_name_of path) msgs (initState cfg fs₀)).1).1,
        match (closeListF env
          (runMessagesF H env cfg od (bag_name_of path) msgs (initState cfg fs₀)).1.csv_writers
          (runMessagesF H env cfg od (bag_name_of path) msgs (initState cfg fs₀)).1).2 with
        | some e => some e
        | none =>
          (runMessagesF H env cfg od (bag_name_of path) msgs (initState cfg fs₀)).2) :=
  rfl

end ExtractBag

namespace ExtractBag

/-! ### Claim C1: the close guarantee of the sink lifecycle -/

/-- C1 counterexample: two concrete failure runs of the refined model.
First, a bag whose only message has an unknown type: the column lookup
raises after the `open` of line 97 but before the registration of line
102, so the bag ends with the handle of topic `/t` still open and no
close performed — an open CSV file handle survives the bag's processing
scope.  Second, a two-topic bag in which closing the first registered
writer raises: the unguarded finally loop stops, no close event is
recorded and both handles stay open. -/
theorem open_handle_survives_counterexample :
    ((extract_singleF unkTypeHandlers quietEnv oneCsvTopic "d/b.bag"
        [⟨"/t", "T", 0⟩] "out" []).1.openHandles = ["/t"] ∧
      (extract_singleF unkTypeHandlers quietEnv oneCsvTopic "d/b.bag"
        [⟨"/t", "T", 0⟩] "out" []).1.closeEvents = [] ∧
      (extract_singleF unkTypeHandlers quietEnv oneCsvTopic "d/b.bag"
        [⟨"/t", "T", 0⟩] "out" []).2 = some "UnsupportedMessageType") ∧
    ((extract_singleF okHandlersF closeFailEnv twoCsvTopics "d/b.bag"
        [⟨"/t1", "T", 0⟩, ⟨"/t2", "T", 0⟩] "out" []).1.openHandles = ["/t1", "/t2"] ∧
      (extract_singleF okHandlersF closeFailEnv twoCsvTopics "d/b.bag"
        [⟨"/t1", "T", 0⟩, ⟨"/t2", "T", 0⟩] "out" []).1.closeEvents = [] ∧
      (extract_singleF okHandlersF closeFailEnv twoCsvTopics "d/b.bag"
        [⟨"/t1", "T", 0⟩, ⟨"/t2", "T", 0⟩] "out" []).2 = some "IOError") := by
  exact ⟨⟨rfl, rfl, rfl⟩, ⟨rfl, rfl, rfl⟩⟩

/-- C1 amended: when every `close()` succeeds, the bag's processing —
ending by exhaustion or by an exception at any point, including inside
the sink-creation window — closes every topic registered in
`csv_writers` exactly once, and the handles that survive the bag's
processing scope are exactly those opened but never registered: at most
one, opened by the failing message between the `open` of line 97 and
the registration of line 102; on a failure-free run none survive. -/
theorem extract_singleF_registered_sinks_closed_once (H : HandlersF) (env : FsEnv)
    (cfg : List TopicConfig) (path : String) (msgs : List Msg) (od : String)
    (fs₀ : List (String × List (List String)))
    (hclose : ∀ t, env.close_raises t = none) :
    ∃ leak : List String,
      leak.length ≤ 1 ∧
      (extract_singleF H env cfg path msgs od fs₀).1.closeEvents
        = (extract_singleF H env cfg path msgs od fs₀).1.csv_writers.map Prod.fst ∧
      ((extract_singleF H env cfg path msgs od fs₀).1.csv_writers.map Prod.fst).Nodup ∧
      (extract_singleF H env cfg path msgs od fs₀).1.opened
        = (extract_singleF H env cfg path msgs od fs₀).1.csv_writers.map Prod.fst ++ leak ∧
      (extract_singleF H env cfg path msgs od fs₀).1.openHandles = leak ∧
      ((extract_singleF H env cfg path msgs od fs₀).2 = none → leak = []) := by
  have hinit : ResourceInvF (initState cfg fs₀) := ⟨rfl, rfl, rfl, by simp [initState]⟩
  rw [extract_singleF_eq]
  set r := runMessagesF H env cfg od (bag_name_of path) msgs (initState cfg fs₀) with hr
  obtain ⟨hA, hB⟩ := runMessagesF_shape H env cfg od (bag_name_of path) msgs
    (initState cfg fs₀) hinit
  rw [← hr] at hA hB
  cases hr2 : r.2 with
  | none =>
    obtain ⟨h1, h2, h3, h4⟩ := hA hr2
    have hOH : r.1.openHandles = r.1.csv_writers.map Prod.fst ++ [] := by
      rw [List.append_nil, h2, h3]
    obtain ⟨a, b, c, d, e⟩ := closeListF_success env hclose r.1.csv_writers r.1 [] hOH
    refine ⟨[], by simp, ?_, ?_, ?_, ?_, ?_⟩
    · show (closeListF env r.1.csv_writers r.1).1.closeEvents
        = (closeListF env r.1.csv_writers r.1).1.csv_writers.map Prod.fst
      rw [c, h1, e]
      simp
    · show ((closeListF env r.1.csv_writers r.1).1.csv_writers.map Prod.fst).Nodup
      rw [e]
      exact h4
    · show (closeListF env r.1.csv_writers r.1).1.opened
        = (closeListF env r.1.csv_writers r.1).1.csv_writers.map Prod.fst ++ []
      rw [d, e, List.append_nil, h3]
    · show (closeListF env r.1.csv_writers r.1).1.openHandles = []
      exact b
    · intro _
      rfl
  | some e₀ =>
    obtain ⟨h1, h2, h3, leak, h5, h6⟩ := hB e₀ hr2
    have hkeys : (r.1.csv_writers.map Prod.fst).Nodup := by
      rw [h5] at h3
      exact (List.nodup_append.mp h3).1
    have hOH : r.1.openHandles = r.1.csv_writers.map Prod.fst ++ leak := by
      rw [h2, h5]
    obtain ⟨a, b, c, d, e⟩ := closeListF_success env hclose r.1.csv_writers r.1 leak hOH
    refine ⟨leak, h6, ?_, ?_, ?_, ?_, ?_⟩
    · show (closeListF env r.1.csv_writers r.1).1.closeEvents
        = (closeListF env r.1.csv_writers r.1).1.csv_writers.map Prod.fst
      rw [c, h1, e]
      simp
    · show ((closeListF env r.1.csv_writers r.1).1.csv_writers.map Prod.fst).Nodup
      rw [e]
      exact hkeys
    · show (closeListF env r.1.csv_writers r.1).1.opened
        = (closeListF env r.1.csv_writers r.1).1.csv_writers.map Prod.fst ++ leak
      rw [d, e, h5]
    · show (closeListF env r.1.csv_writers r.1).1.openHandles = leak
      exact b
    · intro hn
      have hn' : (match (closeListF env r.1.csv_writers r.1).2 with
          | some e => some e
          | none => some e₀) = none := hn
      rw [a] at hn'
      simp at hn'

/-- C1 amended witness: a quiet file system, an all-ok registry and a
one-message bag — the registered sink is closed exactly once and no
handle survives. -/
theorem extract_singleF_registered_sinks_closed_once_witness :
    ∃ leak : List String,
      leak.length ≤ 1 ∧
      (extract_singleF okHandlersF quietEnv oneCsvTopic "d/b.bag"
        [⟨"/t", "T", 0⟩] "out" []).1.closeEvents
        = (extract_singleF okHandlersF quietEnv oneCsvTopic "d/b.bag"
          [⟨"/t", "T", 0⟩] "out" []).1.csv_writers.map Prod.fst ∧
      ((extract_singleF okHandlersF quietEnv oneCsvTopic "d/b.bag"
        [⟨"/t", "T", 0⟩] "out" []).1.csv_writers.map Prod.fst).Nodup ∧
      (extract_singleF okHandlersF quietEnv oneCsvTopic "d/b.bag"
        [⟨"/t", "T", 0⟩] "out" []).1.opened
        = (extract_singleF okHandlersF quietEnv oneCsvTopic "d/b.bag"
          [⟨"/t", "T", 0⟩] "out" []).1.csv_writers.map Prod.fst ++ leak ∧
      (extract_singleF okHandlersF quietEnv oneCsvTopic "d/b.bag"
        [⟨"/t", "T", 0⟩] "out" []).1.openHandles = leak ∧
      ((extract_singleF okHandlersF quietEnv oneCsvTopic "d/b.bag"
        [⟨"/t", "T", 0⟩] "out" []).2 = none → leak = []) :=
  extract_singleF_registered_sinks_closed_once okHandlersF quietEnv oneCsvTopic
    "d/b.bag" [⟨"/t", "T", 0⟩] "out" [] (fun _ => rfl)

end ExtractBag
